import Mathlib

/-!
# RayCaster: ray casting engine of `include/rayCaster.hpp`

A shallow embedding of `RayCaster::intersectRayModel`, `RayCaster::rayTrace`
and `RayCaster::printPPM`, followed by the properties proved about them.

Conventions of the embedding.

* `float` is read in exact arithmetic: scalars are rationals, so rounding,
  infinities and NaN are outside the model.  `FLT_MAX` keeps its numeric value
  and the literals `0.5f`, `0.0001f`, `0.005f`, `255.f` their decimal value.
* The GLM routines called by the source (`glm::intersectRayTriangle`,
  `glm::areCollinear`, `glm::lookAt` with `glm::inverse`) belong to a library
  that is not part of the repository; they are collected in the structure
  `Glm` and every general theorem holds for an arbitrary `Glm`.
* Reference ("out") parameters are passed in and returned.
* Loops are recursive functions over the remaining iterations.
-/

set_option autoImplicit false
set_option linter.unusedVariables false

/-! ## Vectors and matrices -/

/-- The type `glm::vec3`: three scalar components (`r`, `g`, `b` alias `x`, `y`, `z`). -/
structure Vec3 where
  x : ℚ
  y : ℚ
  z : ℚ
deriving DecidableEq, Repr

namespace Vec3

/-- The vector `{0.f, 0.f, 0.f}`. -/
def zero : Vec3 := ⟨0, 0, 0⟩

/-- Componentwise sum, `a + b` on `glm::vec3`. -/
def add (a b : Vec3) : Vec3 := ⟨a.x + b.x, a.y + b.y, a.z + b.z⟩

/-- Componentwise difference, `a - b` on `glm::vec3`. -/
def sub (a b : Vec3) : Vec3 := ⟨a.x - b.x, a.y - b.y, a.z - b.z⟩

/-- Scalar multiple, `s * v` on `glm::vec3`. -/
def smul (s : ℚ) (v : Vec3) : Vec3 := ⟨s * v.x, s * v.y, s * v.z⟩

/-- The product `glm::dot`. -/
def dot (a b : Vec3) : ℚ := a.x * b.x + a.y * b.y + a.z * b.z

/-- The product `glm::cross`. -/
def cross (a b : Vec3) : Vec3 :=
  ⟨a.y * b.z - a.z * b.y, a.z * b.x - a.x * b.z, a.x * b.y - a.y * b.x⟩

instance : Zero Vec3 := ⟨zero⟩
instance : Inhabited Vec3 := ⟨zero⟩
instance : Add Vec3 := ⟨add⟩
instance : Sub Vec3 := ⟨sub⟩
instance : HMul ℚ Vec3 Vec3 := ⟨smul⟩

/-- Channel `c` of a colour: `0` is `r`, `1` is `g`, anything else is `b`. -/
def channel (v : Vec3) (c : Nat) : ℚ :=
  if c = 0 then v.x else if c = 1 then v.y else v.z

end Vec3

/-- The type `glm::mat3`, stored by columns as GLM does. -/
structure Mat3 where
  c0 : Vec3
  c1 : Vec3
  c2 : Vec3
deriving DecidableEq, Repr

namespace Mat3

/-- The identity matrix. -/
def identity : Mat3 := ⟨⟨1, 0, 0⟩, ⟨0, 1, 0⟩, ⟨0, 0, 1⟩⟩

/-- Scalar multiple of a matrix, `s * m`. -/
def smul (s : ℚ) (m : Mat3) : Mat3 := ⟨s * m.c0, s * m.c1, s * m.c2⟩

/-- Matrix times column vector, `m * v`. -/
def mulVec (m : Mat3) (v : Vec3) : Vec3 := v.x * m.c0 + v.y * m.c1 + v.z * m.c2

instance : HMul ℚ Mat3 Mat3 := ⟨smul⟩
instance : HMul Mat3 Vec3 Vec3 := ⟨mulVec⟩

end Mat3

/-! ## The GLM routines used by the source -/

/-- The library routines the ray caster calls.

* `intersectRayTriangle orig dir A B C` is `some baryPosition` when
  `glm::intersectRayTriangle` returns `true` (its third component is the ray
  parameter) and `none` when it returns `false`.
* `areCollinear v0 v1 epsilon` is `glm::areCollinear`.
* `lookAtInverse eye center up` is
  `glm::inverse(glm::mat3(glm::lookAt(eye, center, up)))`. -/
structure Glm where
  intersectRayTriangle : Vec3 → Vec3 → Vec3 → Vec3 → Vec3 → Option Vec3
  areCollinear : Vec3 → Vec3 → ℚ → Bool
  lookAtInverse : Vec3 → Vec3 → Vec3 → Mat3

/-- Machine epsilon of `float`, `2^-23`. -/
def FLT_EPSILON : ℚ := 1 / 2 ^ 23

/-- The largest finite `float`, `(2^24 - 1) * 2^104`. -/
def FLT_MAX : ℚ := (2 ^ 24 - 1) * 2 ^ 104

/-- The ray/triangle test of `glm/gtx/intersect` in its three-component
barycentric form (the one the source calls), computed exactly. -/
def exactIntersectRayTriangle (orig dir v0 v1 v2 : Vec3) : Option Vec3 :=
  let e1 := v1 - v0
  let e2 := v2 - v0
  let p := Vec3.cross dir e2
  let a := Vec3.dot e1 p
  if a < FLT_EPSILON ∧ -FLT_EPSILON < a then none
  else
    let f := 1 / a
    let s := orig - v0
    let bx := f * Vec3.dot s p
    if bx < 0 then none
    else if 1 < bx then none
    else
      let q := Vec3.cross s e1
      let by_ := f * Vec3.dot dir q
      if by_ < 0 then none
      else if 1 < by_ + bx then none
      else
        let bz := f * Vec3.dot e2 q
        if 0 ≤ bz then some ⟨bx, by_, bz⟩ else none

/-- The test `glm::areCollinear`, `length(cross(v0, v1)) < epsilon`, with the
square root removed by squaring both sides. -/
def exactAreCollinear (v0 v1 : Vec3) (epsilon : ℚ) : Bool :=
  decide (0 < epsilon ∧
    Vec3.dot (Vec3.cross v0 v1) (Vec3.cross v0 v1) < epsilon * epsilon)

/-- The GLM routines in exact arithmetic, for the camera at the origin that
looks down the negative `z` axis with `up = (0, 1, 0)`: its look-at rotation,
and so the inverse, is the identity. -/
def exactGlm : Glm where
  intersectRayTriangle := exactIntersectRayTriangle
  areCollinear := exactAreCollinear
  lookAtInverse := fun _ _ _ => Mat3.identity

/-! ## Scene data -/

/-- A mesh vertex (`Vertex` of `mesh.hpp`); only `Position` is read here. -/
structure Vertex where
  Position : Vec3
  Normal : Vec3 := 0
  TexCoords : ℚ × ℚ := (0, 0)
deriving DecidableEq, Repr

instance : Inhabited Vertex := ⟨⟨0, 0, (0, 0)⟩⟩

/-- The flat colour descriptor of a mesh; only `diffuse` is read here. -/
structure Color where
  diffuse : Vec3
  ambient : Vec3 := 0
  specular : Vec3 := 0
  emissive : Vec3 := 0
  shininess : ℚ := 0
deriving DecidableEq, Repr

/-- A mesh: vertices, an index sequence read three at a time, and a colour. -/
structure Mesh where
  vertices : List Vertex
  indices : List Nat
  color : Color
deriving DecidableEq, Repr

/-- The model: its meshes in declaration order. -/
structure Model where
  meshes : List Mesh
deriving DecidableEq, Repr

/-- A point light. -/
structure Light where
  position : Vec3
deriving DecidableEq, Repr

/-- The scene fields the ray caster reads: resolution, shadow flag `k`, lights. -/
structure Scene where
  xres : Nat
  yres : Nat
  k : Bool
  lights : List Light
deriving DecidableEq, Repr

/-! ## `RayCaster::intersectRayModel` -/

/-- Outcome of scanning triangles: either the scan left through the
`return true` of a shadow ray, with the colour it stored in `pixel`, or it
ran on with the current `minDist` and `closestMesh`. -/
inductive Scan where
  | returned (pixel : Vec3)
  | running (minDist : ℚ) (closestMesh : Option Mesh)
deriving DecidableEq, Repr

/-- The body of the triangles loop once `A`, `B`, `C` are read (lines 53-61). -/
def triangleStep (glm : Glm) (origin direction : Vec3) (shadowRay : Bool) (mesh : Mesh)
    (A B C : Vec3) (minDist : ℚ) (closestMesh : Option Mesh) : Scan :=
  match glm.intersectRayTriangle origin direction A B C with
  | some baryPosition =>
    if baryPosition.z < minDist then
      if shadowRay then Scan.returned mesh.color.diffuse
      else Scan.running baryPosition.z (some mesh)
    else Scan.running minDist closestMesh
  | none => Scan.running minDist closestMesh

/-- The triangles loop of one mesh (lines 47-62) over the indices still to be
read.  Fewer than three remaining indices end the loop (the source would read
past the end of `indices`); an index outside `vertices` reads a zero vertex. -/
def trianglesLoop (glm : Glm) (origin direction : Vec3) (shadowRay : Bool) (mesh : Mesh) :
    List Nat → ℚ → Option Mesh → Scan
  | i0 :: i1 :: i2 :: rest, minDist, closestMesh =>
    let A := (mesh.vertices.getD i0 default).Position
    let B := (mesh.vertices.getD i1 default).Position
    let C := (mesh.vertices.getD i2 default).Position
    match triangleStep glm origin direction shadowRay mesh A B C minDist closestMesh with
    | Scan.returned pixel => Scan.returned pixel
    | Scan.running minDist' closestMesh' =>
      trianglesLoop glm origin direction shadowRay mesh rest minDist' closestMesh'
  | _, minDist, closestMesh => Scan.running minDist closestMesh

/-- The loop over the meshes of the model (lines 43-63). -/
def meshesLoop (glm : Glm) (origin direction : Vec3) (shadowRay : Bool) :
    List Mesh → ℚ → Option Mesh → Scan
  | [], minDist, closestMesh => Scan.running minDist closestMesh
  | mesh :: rest, minDist, closestMesh =>
    match trianglesLoop glm origin direction shadowRay mesh mesh.indices minDist closestMesh with
    | Scan.returned pixel => Scan.returned pixel
    | Scan.running minDist' closestMesh' =>
      meshesLoop glm origin direction shadowRay rest minDist' closestMesh'

/-- The function `RayCaster::intersectRayModel` (lines 38-71).  The arguments
`pixel` and `cross` are the values the two reference parameters hold at the
call; the result is the returned boolean with their values at the return. -/
def intersectRayModel (glm : Glm) (model : Model) (origin direction : Vec3)
    (pixel cross : Vec3) (shadowRay : Bool) : Bool × Vec3 × Vec3 :=
  match meshesLoop glm origin direction shadowRay model.meshes FLT_MAX none with
  | Scan.returned pixel' => (true, pixel', cross)
  | Scan.running minDist (some closestMesh) =>
    (true, closestMesh.color.diffuse, origin + minDist * direction)
  | Scan.running _ none => (false, ⟨0, 0, 0⟩, cross)

/-! ## The frame buffer -/

/-- The class `RayCaster`: the model and scene it refers to, the float grid
`pixels` (rows of the image, top row first) and the byte buffer `data`. -/
structure RayCaster where
  model : Model
  scene : Scene
  pixels : List (List Vec3)
  data : List Nat
deriving DecidableEq, Repr

/-- The constructor `RayCaster::RayCaster` (lines 33-35): `yres` rows of `xres`
pixels and `yres * xres * 3` bytes, all value-initialised. -/
def RayCaster.create (model : Model) (scene : Scene) : RayCaster where
  model := model
  scene := scene
  pixels := List.replicate scene.yres (List.replicate scene.xres 0)
  data := List.replicate (scene.yres * scene.xres * 3) 0

/-- The buffers have the size the constructor gives them for the scene. -/
def RayCaster.WellSized (rc : RayCaster) : Prop :=
  rc.pixels.length = rc.scene.yres ∧ (∀ row ∈ rc.pixels, row.length = rc.scene.xres) ∧
    rc.data.length = rc.scene.yres * rc.scene.xres * 3

instance (rc : RayCaster) : Decidable rc.WellSized := by
  unfold RayCaster.WellSized; exact inferInstance

/-- The element `pixels[y][x]`, when both indices are in range. -/
def RayCaster.pixelAt (rc : RayCaster) (y x : Nat) : Option Vec3 :=
  (rc.pixels[y]?).bind (fun row => row[x]?)

/-! ## `RayCaster::rayTrace` -/

/-- Rounding toward zero, as the conversion of a `float` to an integer does. -/
def truncate (q : ℚ) : ℤ := if 0 ≤ q then ⌊q⌋ else ⌈q⌉

/-- The cast `(uint8_t)f`: `f` is rounded toward zero and the low eight bits
are kept.  Strictly between `-1` and `256` that is the value fixed by the
language; outside that range the language leaves the result undefined and the
model follows the usual conversion through a wider integer. -/
def toUint8 (f : ℚ) : Nat := (truncate f % 256).toNat

/-- The vectors that survive the set-up of `rayTrace` (lines 74-88): the ray of
the first pixel and the steps to the next row and the next column. -/
structure RayBasis where
  current : Vec3
  dy : Vec3
  dx : Vec3
deriving DecidableEq, Repr

/-- Lines 74-88 of `rayTrace`: the screen plane and its rotation. -/
def rayBasis (glm : Glm) (scene : Scene) (eye center up : Vec3) (yview : ℚ) : RayBasis :=
  let z : ℚ := 1
  let y : ℚ := z * (1 / 2) * yview
  let x : ℚ := y * ((scene.xres : ℚ) / (scene.yres : ℚ))
  let leftUpper : Vec3 := ⟨-x, y, -z⟩
  let dy : Vec3 := ⟨0, -2 * y, 0⟩
  let dx : Vec3 := ⟨2 * x, 0, 0⟩
  let rotate : Mat3 := glm.lookAtInverse eye center up
  let leftUpper : Vec3 := rotate * leftUpper
  let dy : Vec3 := ((1 / (scene.yres : ℚ)) * rotate) * dy
  let dx : Vec3 := ((1 / (scene.xres : ℚ)) * rotate) * dx
  { current := leftUpper + (1 / 2 : ℚ) * (dy + dx), dy := dy, dx := dx }

/-- The shadow-ray loop (lines 95-102) acting on `pixels[y][x]`; `cross` is the
primary hit point.  The call leaves `shadowRay` at its default `false`. -/
def shadowLoop (glm : Glm) (model : Model) (cross : Vec3) : List Light → Vec3 → Vec3
  | [], pixel => pixel
  | light :: rest, pixel =>
    let r := intersectRayModel glm model
      (cross + ((1 / 10000 : ℚ) * (light.position - cross))) (light.position - cross)
      default default false
    shadowLoop glm model cross rest (if r.1 then (1 / 2 : ℚ) * r.2.1 else pixel)

/-- The light-rendering loop (lines 106-109) acting on `pixels[y][x]`. -/
def lightsLoop (glm : Glm) (eye currentRay : Vec3) : List Light → Vec3 → Vec3
  | [], pixel => pixel
  | light :: rest, pixel =>
    lightsLoop glm eye currentRay rest
      (if glm.areCollinear currentRay (light.position - eye) (5 / 1000) then ⟨1, 1, 1⟩
       else pixel)

/-- Lines 92-109: the value of `pixels[y][x]` when the byte conversion starts,
from the value `pixel` it holds when the body is entered. -/
def pixelColor (glm : Glm) (model : Model) (scene : Scene) (eye currentRay pixel : Vec3) :
    Vec3 :=
  let r := intersectRayModel glm model eye currentRay pixel default false
  let pixel := r.2.1
  let pixel := if r.1 && scene.k then shadowLoop glm model r.2.2 scene.lights pixel else pixel
  lightsLoop glm eye currentRay scene.lights pixel

/-- The position in `data` of channel `c` of pixel `(x, y)` (line 111). -/
def dataIndex (scene : Scene) (y x c : Nat) : Nat :=
  3 * ((scene.yres - y - 1) * scene.xres + x) + c

/-- The body of the pixel loop (lines 92-114). -/
def pixelBody (glm : Glm) (eye : Vec3) (y x : Nat) (currentRay : Vec3) (rc : RayCaster) :
    RayCaster :=
  let pixel := pixelColor glm rc.model rc.scene eye currentRay
    ((rc.pixels.getD y []).getD x default)
  let i := dataIndex rc.scene y x 0
  { rc with
    pixels := rc.pixels.set y ((rc.pixels.getD y []).set x pixel)
    data := ((rc.data.set i (toUint8 (pixel.x * 255))).set (i + 1)
      (toUint8 (pixel.y * 255))).set (i + 2) (toUint8 (pixel.z * 255)) }

/-- The loop over `x` (line 91) with `n` iterations left. -/
def columnsLoop (glm : Glm) (eye dx : Vec3) (y : Nat) :
    Nat → Nat → Vec3 → RayCaster → RayCaster
  | 0, _, _, rc => rc
  | n + 1, x, currentRay, rc =>
    columnsLoop glm eye dx y n (x + 1) (currentRay + dx) (pixelBody glm eye y x currentRay rc)

/-- The loop over `y` (line 89) with `n` iterations left. -/
def rowsLoop (glm : Glm) (eye dy dx : Vec3) : Nat → Nat → Vec3 → RayCaster → RayCaster
  | 0, _, _, rc => rc
  | n + 1, y, current, rc =>
    rowsLoop glm eye dy dx n (y + 1) (current + dy)
      (columnsLoop glm eye dx y rc.scene.xres 0 current rc)

/-- The function `RayCaster::rayTrace` (lines 73-117). -/
def rayTrace (glm : Glm) (rc : RayCaster) (eye center up : Vec3) (yview : ℚ) : RayCaster :=
  let b := rayBasis glm rc.scene eye center up yview
  rowsLoop glm eye b.dy b.dx rc.scene.yres 0 b.current rc

/-- The vector `v` after `n` additions of `d` (`current += dy`, `currentRay += dx`). -/
def addRepeated (d : Vec3) : Nat → Vec3 → Vec3
  | 0, v => v
  | n + 1, v => addRepeated d n (v + d)

/-- The value of `currentRay` when the loop body runs for pixel `(x, y)`. -/
def primaryRay (glm : Glm) (scene : Scene) (eye center up : Vec3) (yview : ℚ) (y x : Nat) :
    Vec3 :=
  let b := rayBasis glm scene eye center up yview
  addRepeated b.dx x (addRepeated b.dy y b.current)

/-! ## `RayCaster::printPPM` -/

/-- The three insertions of one pixel (lines 124-126). -/
def ppmPixel (rc : RayCaster) (y x : Nat) : String :=
  toString (rc.data.getD (3 * (rc.scene.xres * y + x)) 0) ++ " " ++
  (toString (rc.data.getD (3 * (rc.scene.xres * y + x) + 1) 0) ++ " " ++
  (toString (rc.data.getD (3 * (rc.scene.xres * y + x) + 2) 0) ++ " "))

/-- The loop over `x` of `printPPM` (line 123) with `n` iterations left. -/
def ppmColumns (rc : RayCaster) (y : Nat) : Nat → Nat → String
  | 0, _ => ""
  | n + 1, x => ppmPixel rc y x ++ ppmColumns rc y n (x + 1)

/-- The loop of line 122, entered with `y = n - 1` and counting down to `0`. -/
def ppmRows (rc : RayCaster) : Nat → String
  | 0 => ""
  | y + 1 => (ppmColumns rc y rc.scene.xres 0 ++ "\n") ++ ppmRows rc y

/-- The function `RayCaster::printPPM` (lines 119-130): the text written to the
stream. -/
def printPPM (rc : RayCaster) : String :=
  "P3\n" ++ ((toString rc.scene.xres ++ " " ++ toString rc.scene.yres ++ " \n255\n") ++
    ppmRows rc rc.scene.yres)

/-! ## The triangles of a model in iteration order -/

/-- A triangle together with the mesh that owns it. -/
structure Triangle where
  mesh : Mesh
  A : Vec3
  B : Vec3
  C : Vec3
deriving DecidableEq, Repr

/-- The triangles of a mesh: its indices in consecutive groups of three. -/
def meshTriangles (mesh : Mesh) : List Nat → List Triangle
  | i0 :: i1 :: i2 :: rest =>
    ⟨mesh, (mesh.vertices.getD i0 default).Position, (mesh.vertices.getD i1 default).Position,
      (mesh.vertices.getD i2 default).Position⟩ :: meshTriangles mesh rest
  | _ => []

/-- The triangles of a list of meshes, mesh after mesh. -/
def meshesTriangles : List Mesh → List Triangle
  | [] => []
  | mesh :: rest => meshTriangles mesh mesh.indices ++ meshesTriangles rest

/-- All triangles of the model in the order `intersectRayModel` visits them. -/
def modelTriangles (model : Model) : List Triangle := meshesTriangles model.meshes

/-- The ray parameter `t` at which the ray meets the triangle, when the
intersection routine reports an intersection. -/
def rayParam (glm : Glm) (origin direction : Vec3) (t : Triangle) : Option ℚ :=
  (glm.intersectRayTriangle origin direction t.A t.B t.C).map Vec3.z

/-- The triangle is intersected at a ray parameter below `bound`. -/
def hitsBelow (glm : Glm) (origin direction : Vec3) (bound : ℚ) (t : Triangle) : Bool :=
  match rayParam glm origin direction t with
  | some s => decide (s < bound)
  | none => false

/-- The scan of `intersectRayModel` over an explicit list of triangles. -/
def scanList (glm : Glm) (origin direction : Vec3) (shadowRay : Bool) :
    List Triangle → ℚ → Option Mesh → Scan
  | [], minDist, closestMesh => Scan.running minDist closestMesh
  | t :: rest, minDist, closestMesh =>
    match triangleStep glm origin direction shadowRay t.mesh t.A t.B t.C minDist closestMesh with
    | Scan.returned pixel => Scan.returned pixel
    | Scan.running minDist' closestMesh' =>
      scanList glm origin direction shadowRay rest minDist' closestMesh'

/-! ## Example scenes -/

/-- A mesh of one triangle with corners `(-1, -1, zc)`, `(1, -1, zc)`,
`(0, 1, zc)` and diffuse colour `col`; the `z` axis passes through it. -/
def triangleMesh (zc : ℚ) (col : Vec3) : Mesh where
  vertices := [{ Position := ⟨-1, -1, zc⟩ }, { Position := ⟨1, -1, zc⟩ },
    { Position := ⟨0, 1, zc⟩ }]
  indices := [0, 1, 2]
  color := { diffuse := col }

/-- A ray direction along the negative `z` axis of length `2^-22`. -/
def slowRay : Vec3 := ⟨0, 0, -(1 / 2 ^ 22)⟩

/-- A red triangle at depth `2^110`, met by `slowRay` at parameter `2^132`. -/
def farModel : Model := ⟨[triangleMesh (-(2 ^ 110)) ⟨1, 0, 0⟩]⟩

/-- The far red triangle followed by a green triangle at depth `1`. -/
def farThenNearModel : Model :=
  ⟨[triangleMesh (-(2 ^ 110)) ⟨1, 0, 0⟩, triangleMesh (-1) ⟨0, 1, 0⟩]⟩

/-- A red triangle at depth `5` declared before a green one at depth `3`. -/
def twoDepthsModel : Model := ⟨[triangleMesh (-5) ⟨1, 0, 0⟩, triangleMesh (-3) ⟨0, 1, 0⟩]⟩

/-- A blue triangle in the plane `z = -3` that lies off the `z` axis. -/
def offsetTriangleMesh : Mesh where
  vertices := [{ Position := ⟨1 / 5, 1 / 10, -3⟩ }, { Position := ⟨3 / 5, 1 / 10, -3⟩ },
    { Position := ⟨2 / 5, 1 / 2, -3⟩ }]
  indices := [0, 1, 2]
  color := { diffuse := ⟨0, 0, 1⟩ }

/-- The canonical camera: eye at the origin. -/
def eye0 : Vec3 := ⟨0, 0, 0⟩

/-- The canonical camera: look-at target on the negative `z` axis. -/
def center0 : Vec3 := ⟨0, 0, -1⟩

/-- The canonical camera: world up. -/
def up0 : Vec3 := ⟨0, 1, 0⟩

/-- Two triangles at depths 5 and 3 rendered at 3 by 2 pixels, one light. -/
def twoDepthsCaster : RayCaster :=
  RayCaster.create twoDepthsModel ⟨3, 2, true, [⟨⟨0, 5, -4⟩⟩]⟩

/-- One triangle whose diffuse colour has a red channel of 2, at 1 by 1 pixel. -/
def brightCaster : RayCaster :=
  RayCaster.create ⟨[triangleMesh (-5) ⟨2, 0, 0⟩]⟩ ⟨1, 1, false, []⟩

/-- A scene without meshes and without lights at 2 by 2 pixels. -/
def emptyCaster : RayCaster := RayCaster.create ⟨[]⟩ ⟨2, 2, true, []⟩

/-- A red triangle at depth 5, a green one at depth 7 behind it and a light on
the `z` axis at depth 10, shadows enabled, at 1 by 1 pixel: the shadow ray of
the only pixel is blocked by the green triangle and the light lies on the
primary ray. -/
def litCaster : RayCaster :=
  RayCaster.create ⟨[triangleMesh (-5) ⟨1, 0, 0⟩, triangleMesh (-7) ⟨0, 1, 0⟩]⟩
    ⟨1, 1, true, [⟨⟨0, 0, -10⟩⟩]⟩

/-- The light behind the green triangle of `occludedCaster`. -/
def lightBehind : Light := ⟨⟨0, 1 / 5, -15⟩⟩

/-- The light in front of the blue triangle of `occludedCaster`. -/
def lightInFront : Light := ⟨⟨2, 1, 5⟩⟩

/-- A red triangle at depth 5 seen by the only pixel, with two lights: the path
to `lightBehind` is blocked by a green triangle at depth 7, the path to
`lightInFront` by the blue `offsetTriangleMesh`. -/
def occludedCaster : RayCaster :=
  RayCaster.create
    ⟨[triangleMesh (-5) ⟨1, 0, 0⟩, triangleMesh (-7) ⟨0, 1, 0⟩, offsetTriangleMesh]⟩
    ⟨1, 1, true, [lightBehind, lightInFront]⟩

/-- A red triangle at depth 5 and a light above it that nothing hides. -/
def openCaster : RayCaster :=
  RayCaster.create ⟨[triangleMesh (-5) ⟨1, 0, 0⟩]⟩ ⟨1, 1, true, [⟨⟨0, 5, 0⟩⟩]⟩

/-! ## Notions used to state the properties -/

/-- The value `clamp(v, 0, 1)`. -/
def clamp01 (v : ℚ) : ℚ := max 0 (min v 1)

/-- The point of the screen plane at unit distance through which the ray of
pixel `(x, y)` is meant to pass: half-height `Y = 0.5 * yview`, half-width
`X = Y * xres / yres`, pixel centre. -/
def pixelCentre (scene : Scene) (yview : ℚ) (y x : Nat) : Vec3 :=
  let Y : ℚ := (1 / 2) * yview
  let X : ℚ := Y * (scene.xres : ℚ) / (scene.yres : ℚ)
  ⟨-X + (2 * (x : ℚ) + 1) * X / (scene.xres : ℚ),
    Y - (2 * (y : ℚ) + 1) * Y / (scene.yres : ℚ), -1⟩

/-- The secondary ray cast from the hit point `P` toward `light` (lines 97-98):
origin `P + 0.0001 * (L - P)`, direction `L - P`, nearest-hit mode. -/
def castShadowRay (glm : Glm) (model : Model) (P : Vec3) (light : Light) :
    Bool × Vec3 × Vec3 :=
  intersectRayModel glm model (P + ((1 / 10000 : ℚ) * (light.position - P)))
    (light.position - P) default default false

/-- The same ray caster with the shadow flag `k` of its scene set to `k`. -/
def withShadowFlag (rc : RayCaster) (k : Bool) : RayCaster :=
  { rc with scene := { rc.scene with k := k } }

/-- The bytes of a ray caster agree with its float grid through the row flip:
the byte at `dataIndex y x c` is the cast of channel `c` of `pixels[y][x]`
times `255`. -/
def Consistent (rs : RayCaster) : Prop :=
  ∀ y x c p, y < rs.scene.yres → x < rs.scene.xres → c < 3 → rs.pixelAt y x = some p →
    rs.data[dataIndex rs.scene y x c]? = some (toUint8 (p.channel c * 255))

/-- Concatenation of a list of texts. -/
def concatAll : List String → String
  | [] => ""
  | s :: rest => s ++ concatAll rest

/-- The three byte values of a pixel as `printPPM` writes them. -/
def ppmTriplet (p : Vec3) : String :=
  toString (toUint8 (p.x * 255)) ++ " " ++
  (toString (toUint8 (p.y * 255)) ++ " " ++
  (toString (toUint8 (p.z * 255)) ++ " "))

/-- One line of the export: the triplets of a row of the float grid. -/
def ppmRowText (row : List Vec3) : String := concatAll (row.map ppmTriplet) ++ "\n"

/-- The export the format description asks for: header, resolution line with
`255`, then the rows of the float grid from the first to the last. -/
def ppmText (xres yres : Nat) (pixels : List (List Vec3)) : String :=
  "P3\n" ++ ((toString xres ++ " " ++ toString yres ++ " \n255\n") ++
    concatAll (pixels.map ppmRowText))

theorem trianglesLoop_eq_scanList (glm : Glm) (o d : Vec3) (sh : Bool) (mesh : Mesh) :
    ∀ (idxs : List Nat) (m : ℚ) (c : Option Mesh),
      trianglesLoop glm o d sh mesh idxs m c = scanList glm o d sh (meshTriangles mesh idxs) m c
  | i0 :: i1 :: i2 :: rest, m, c => by
    simp only [trianglesLoop, meshTriangles, scanList]
    cases triangleStep glm o d sh mesh (mesh.vertices.getD i0 default).Position
      (mesh.vertices.getD i1 default).Position (mesh.vertices.getD i2 default).Position m c with
    | returned p => rfl
    | running m' c' => exact trianglesLoop_eq_scanList glm o d sh mesh rest m' c'
  | [], m, c => by simp [trianglesLoop, meshTriangles, scanList]
  | [_], m, c => by simp [trianglesLoop, meshTriangles, scanList]
  | [_, _], m, c => by simp [trianglesLoop, meshTriangles, scanList]

theorem scanList_append (glm : Glm) (o d : Vec3) (sh : Bool) (l₂ : List Triangle) :
    ∀ (l₁ : List Triangle) (m : ℚ) (c : Option Mesh),
      scanList glm o d sh (l₁ ++ l₂) m c =
        match scanList glm o d sh l₁ m c with
        | Scan.returned p => Scan.returned p
        | Scan.running m' c' => scanList glm o d sh l₂ m' c'
  | [], m, c => by simp [scanList]
  | t :: rest, m, c => by
    simp only [List.cons_append, scanList]
    cases triangleStep glm o d sh t.mesh t.A t.B t.C m c with
    | returned p => rfl
    | running m' c' => exact scanList_append glm o d sh l₂ rest m' c'

theorem meshesLoop_eq_scanList (glm : Glm) (o d : Vec3) (sh : Bool) :
    ∀ (meshes : List Mesh) (m : ℚ) (c : Option Mesh),
      meshesLoop glm o d sh meshes m c = scanList glm o d sh (meshesTriangles meshes) m c
  | [], m, c => by simp [meshesLoop, meshesTriangles, scanList]
  | mesh :: rest, m, c => by
    simp only [meshesLoop, meshesTriangles, scanList_append, trianglesLoop_eq_scanList]
    cases scanList glm o d sh (meshTriangles mesh mesh.indices) m c with
    | returned p => rfl
    | running m' c' => exact meshesLoop_eq_scanList glm o d sh rest m' c'

/-- One step of the nearest-hit scan, by cases on the ray parameter. -/
theorem triangleStep_nearest (glm : Glm) (o d : Vec3) (t : Triangle) (m : ℚ) (c : Option Mesh) :
    triangleStep glm o d false t.mesh t.A t.B t.C m c =
      match rayParam glm o d t with
      | some s => if s < m then Scan.running s (some t.mesh) else Scan.running m c
      | none => Scan.running m c := by
  unfold triangleStep rayParam
  cases glm.intersectRayTriangle o d t.A t.B t.C <;> simp

/-- One step of the shadow scan, by cases on the ray parameter. -/
theorem triangleStep_shadow (glm : Glm) (o d : Vec3) (t : Triangle) (m : ℚ) (c : Option Mesh) :
    triangleStep glm o d true t.mesh t.A t.B t.C m c =
      if hitsBelow glm o d m t then Scan.returned t.mesh.color.diffuse else Scan.running m c := by
  unfold triangleStep hitsBelow rayParam
  cases glm.intersectRayTriangle o d t.A t.B t.C <;> simp

/-- The nearest-hit scan either changes nothing, because no triangle is met
below `m`, or stops at the first triangle that attains the least parameter. -/
theorem scanList_nearest (glm : Glm) (o d : Vec3) :
    ∀ (l : List Triangle) (m : ℚ) (c : Option Mesh),
      ((∀ e ∈ l, ∀ s, rayParam glm o d e = some s → m ≤ s) ∧
        scanList glm o d false l m c = Scan.running m c) ∨
      (∃ pre t post tmin, l = pre ++ t :: post ∧ rayParam glm o d t = some tmin ∧ tmin < m ∧
        (∀ e ∈ pre, ∀ s, rayParam glm o d e = some s → tmin < s) ∧
        (∀ e ∈ post, ∀ s, rayParam glm o d e = some s → tmin ≤ s) ∧
        scanList glm o d false l m c = Scan.running tmin (some t.mesh))
  | [], m, c => by left; simp [scanList]
  | t :: rest, m, c => by
    simp only [scanList, triangleStep_nearest]
    cases hp : rayParam glm o d t with
    | none =>
      rcases scanList_nearest glm o d rest m c with ⟨h1, h2⟩ | ⟨pre, t', post, tm, h1, h2, h3, h4, h5, h6⟩
      · left
        refine ⟨?_, h2⟩
        intro e he s hs
        rcases List.mem_cons.1 he with rfl | he
        · rw [hp] at hs; cases hs
        · exact h1 e he s hs
      · right
        refine ⟨t :: pre, t', post, tm, by simp [h1], h2, h3, ?_, h5, h6⟩
        intro e he s hs
        rcases List.mem_cons.1 he with rfl | he
        · rw [hp] at hs; cases hs
        · exact h4 e he s hs
    | some s₀ =>
      by_cases hlt : s₀ < m
      · simp only [hlt, if_true]
        rcases scanList_nearest glm o d rest s₀ (some t.mesh) with
          ⟨h1, h2⟩ | ⟨pre, t', post, tm, h1, h2, h3, h4, h5, h6⟩
        · right
          exact ⟨[], t, rest, s₀, by simp, hp, hlt, by simp, h1, h2⟩
        · right
          refine ⟨t :: pre, t', post, tm, by simp [h1], h2, lt_trans h3 hlt, ?_, h5, h6⟩
          intro e he s hs
          rcases List.mem_cons.1 he with rfl | he
          · rw [hp] at hs; cases hs; exact h3
          · exact h4 e he s hs
      · simp only [hlt, if_false]
        rcases scanList_nearest glm o d rest m c with
          ⟨h1, h2⟩ | ⟨pre, t', post, tm, h1, h2, h3, h4, h5, h6⟩
        · left
          refine ⟨?_, h2⟩
          intro e he s hs
          rcases List.mem_cons.1 he with rfl | he
          · rw [hp] at hs; cases hs; exact not_lt.1 hlt
          · exact h1 e he s hs
        · right
          refine ⟨t :: pre, t', post, tm, by simp [h1], h2, h3, ?_, h5, h6⟩
          intro e he s hs
          rcases List.mem_cons.1 he with rfl | he
          · rw [hp] at hs; cases hs; exact lt_of_lt_of_le h3 (not_lt.1 hlt)
          · exact h4 e he s hs

/-- The shadow scan returns at the first triangle met below `m`. -/
theorem scanList_shadow (glm : Glm) (o d : Vec3) (m : ℚ) (c : Option Mesh) :
    ∀ (l : List Triangle),
      scanList glm o d true l m c =
        match l.find? (hitsBelow glm o d m) with
        | some t => Scan.returned t.mesh.color.diffuse
        | none => Scan.running m c
  | [] => by simp [scanList]
  | t :: rest => by
    simp only [scanList, triangleStep_shadow, List.find?_cons]
    cases h : hitsBelow glm o d m t with
    | true => simp
    | false => simpa using scanList_shadow glm o d m c rest

/-- The scan of `intersectRayModel` written over the triangle list. -/
theorem intersectRayModel_eq_scan (glm : Glm) (model : Model) (o d pixel cross : Vec3)
    (sh : Bool) :
    intersectRayModel glm model o d pixel cross sh =
      match scanList glm o d sh (modelTriangles model) FLT_MAX none with
      | Scan.returned p => (true, p, cross)
      | Scan.running m (some mesh) => (true, mesh.color.diffuse, o + m * d)
      | Scan.running _ none => (false, ⟨0, 0, 0⟩, cross) := by
  unfold intersectRayModel modelTriangles
  rw [meshesLoop_eq_scanList]

/-- No triangle is met below `bound` exactly when every reported parameter is
at least `bound`. -/
theorem not_hitsBelow_iff (glm : Glm) (o d : Vec3) (bound : ℚ) (l : List Triangle) :
    (¬ ∃ t ∈ l, hitsBelow glm o d bound t = true) ↔
      ∀ e ∈ l, ∀ s, rayParam glm o d e = some s → bound ≤ s := by
  constructor
  · intro h e he s hs
    by_contra hlt
    exact h ⟨e, he, by simp [hitsBelow, hs, not_le.1 hlt]⟩
  · rintro h ⟨t, ht, hb⟩
    unfold hitsBelow at hb
    cases hp : rayParam glm o d t with
    | none => simp [hp] at hb
    | some s =>
      simp only [hp, decide_eq_true_eq] at hb
      exact absurd (h t ht s hp) (not_le.2 hb)

/-- The boolean result of the nearest-hit search. -/
theorem intersectRayModel_true_iff (glm : Glm) (model : Model) (o d pixel cross : Vec3) :
    (intersectRayModel glm model o d pixel cross false).1 = true ↔
      ∃ t ∈ modelTriangles model, hitsBelow glm o d FLT_MAX t = true := by
  rw [intersectRayModel_eq_scan]
  rcases scanList_nearest glm o d (modelTriangles model) FLT_MAX none with
    ⟨h1, h2⟩ | ⟨pre, t, post, tm, h1, h2, h3, h4, h5, h6⟩
  · have hno := (not_hitsBelow_iff glm o d FLT_MAX (modelTriangles model)).2 h1
    rw [h2]
    simp only [Bool.false_eq_true, false_iff]; exact hno
  · have hyes : ∃ t ∈ modelTriangles model, hitsBelow glm o d FLT_MAX t = true :=
      ⟨t, by simp [h1], by simp [hitsBelow, h2, h3]⟩
    rw [h6]
    simpa using hyes

/-- C1 (amended).  With `shadowRay = false`, `intersectRayModel` returns `true`
exactly when some triangle of the model (indices in groups of three, meshes in
model order) is intersected at a ray parameter below `FLT_MAX`.  In that case
the colour is the diffuse colour of the mesh owning the first triangle in
iteration order that attains the least parameter `tmin` among all intersected
triangles (strictly smaller than every earlier one, at most every later one)
and the hit point is `origin + tmin * direction`.  Otherwise it returns `false`
with colour `(0, 0, 0)` and leaves the hit point as it was. -/
theorem intersectRayModel_nearest_hit (glm : Glm) (model : Model)
    (origin direction pixel cross : Vec3) :
    ((intersectRayModel glm model origin direction pixel cross false).1 = true ↔
      ∃ t ∈ modelTriangles model, hitsBelow glm origin direction FLT_MAX t = true) ∧
    ((∃ t ∈ modelTriangles model, hitsBelow glm origin direction FLT_MAX t = true) →
      ∃ pre t post tmin, modelTriangles model = pre ++ t :: post ∧
        rayParam glm origin direction t = some tmin ∧
        (∀ e ∈ pre, ∀ s, rayParam glm origin direction e = some s → tmin < s) ∧
        (∀ e ∈ post, ∀ s, rayParam glm origin direction e = some s → tmin ≤ s) ∧
        intersectRayModel glm model origin direction pixel cross false =
          (true, t.mesh.color.diffuse, origin + tmin * direction)) ∧
    ((¬ ∃ t ∈ modelTriangles model, hitsBelow glm origin direction FLT_MAX t = true) →
      intersectRayModel glm model origin direction pixel cross false =
        (false, ⟨0, 0, 0⟩, cross)) := by
  rw [intersectRayModel_eq_scan]
  rcases scanList_nearest glm origin direction (modelTriangles model) FLT_MAX none with
    ⟨h1, h2⟩ | ⟨pre, t, post, tm, h1, h2, h3, h4, h5, h6⟩
  · have hno := (not_hitsBelow_iff glm origin direction FLT_MAX (modelTriangles model)).2 h1
    rw [h2]
    refine ⟨?_, ?_, ?_⟩
    · simp only [Bool.false_eq_true, false_iff]; exact hno
    · intro h; exact absurd h hno
    · intro _; rfl
  · have hyes : ∃ t ∈ modelTriangles model, hitsBelow glm origin direction FLT_MAX t = true :=
      ⟨t, by simp [h1], by simp [hitsBelow, h2, h3]⟩
    rw [h6]
    refine ⟨?_, ?_, ?_⟩
    · simpa using hyes
    · intro _; exact ⟨pre, t, post, tm, h1, h2, h4, h5, rfl⟩
    · intro h; exact absurd hyes h

/-- C1, instance: of a red triangle at depth 5 and a green one at depth 3 the
green one is reported, although the red mesh comes first. -/
theorem intersectRayModel_nearest_hit_witness :
    (∃ t ∈ modelTriangles twoDepthsModel, hitsBelow exactGlm 0 ⟨0, 0, -1⟩ FLT_MAX t = true) ∧
    ∃ pre t post tmin, modelTriangles twoDepthsModel = pre ++ t :: post ∧
      rayParam exactGlm 0 ⟨0, 0, -1⟩ t = some tmin ∧
      (∀ e ∈ pre, ∀ s, rayParam exactGlm 0 ⟨0, 0, -1⟩ e = some s → tmin < s) ∧
      (∀ e ∈ post, ∀ s, rayParam exactGlm 0 ⟨0, 0, -1⟩ e = some s → tmin ≤ s) ∧
      intersectRayModel exactGlm twoDepthsModel 0 ⟨0, 0, -1⟩ 0 0 false =
        (true, t.mesh.color.diffuse, (0 : Vec3) + tmin * (⟨0, 0, -1⟩ : Vec3)) :=
  ⟨by decide!,
    (intersectRayModel_nearest_hit exactGlm twoDepthsModel 0 ⟨0, 0, -1⟩ 0 0).2.1 (by decide!)⟩

/-- C1, counterexample: the triangle of `farModel` is intersected by the ray
at parameter `2^132` (in `float` the product overflows to `+inf`, which is not
below `FLT_MAX` either), yet the nearest-hit search returns `false`. -/
theorem intersectRayModel_misses_far_triangle :
    (∃ t ∈ modelTriangles farModel, (rayParam exactGlm 0 slowRay t).isSome = true) ∧
    intersectRayModel exactGlm farModel 0 slowRay 0 0 false = (false, ⟨0, 0, 0⟩, 0) := by
  decide!

/-- C2 (amended).  With `shadowRay = true`, `intersectRayModel` returns at the
first triangle in iteration order that is intersected at a ray parameter below
`FLT_MAX`, whatever the parameters of the later triangles: it returns `true`
with the diffuse colour of that triangle's mesh and leaves the hit point as it
was; when there is no such triangle it returns `false` with colour `(0, 0, 0)`.
Its boolean result equals that of the nearest-hit search. -/
theorem intersectRayModel_shadow (glm : Glm) (model : Model)
    (origin direction pixel cross : Vec3) :
    intersectRayModel glm model origin direction pixel cross true =
      (match (modelTriangles model).find? (hitsBelow glm origin direction FLT_MAX) with
        | some t => (true, t.mesh.color.diffuse, cross)
        | none => (false, ⟨0, 0, 0⟩, cross)) ∧
    (intersectRayModel glm model origin direction pixel cross true).1 =
      (intersectRayModel glm model origin direction pixel cross false).1 := by
  have hs : intersectRayModel glm model origin direction pixel cross true =
      (match (modelTriangles model).find? (hitsBelow glm origin direction FLT_MAX) with
        | some t => (true, t.mesh.color.diffuse, cross)
        | none => (false, ⟨0, 0, 0⟩, cross)) := by
    rw [intersectRayModel_eq_scan, scanList_shadow]
    cases (modelTriangles model).find? (hitsBelow glm origin direction FLT_MAX) <;> rfl
  refine ⟨hs, ?_⟩
  have hn := intersectRayModel_true_iff glm model origin direction pixel cross
  rw [hs]
  cases hf : (modelTriangles model).find? (hitsBelow glm origin direction FLT_MAX) with
  | none =>
    have : ¬ ∃ t ∈ modelTriangles model, hitsBelow glm origin direction FLT_MAX t = true := by
      rintro ⟨t, ht, hb⟩
      exact absurd hb (by simpa using List.find?_eq_none.1 hf t ht)
    cases hb : (intersectRayModel glm model origin direction pixel cross false).1 with
    | false => rfl
    | true => exact absurd (hn.1 hb) this
  | some t =>
    have : ∃ t ∈ modelTriangles model, hitsBelow glm origin direction FLT_MAX t = true :=
      ⟨t, List.mem_of_find?_eq_some hf, List.find?_some hf⟩
    exact (hn.2 this).symm

/-- C2, instance: of a red triangle at depth 5 declared before a green one at
depth 3, the shadow-mode call reports the red one, the first in iteration
order, although the green one is nearer. -/
theorem intersectRayModel_shadow_witness :
    intersectRayModel exactGlm twoDepthsModel 0 ⟨0, 0, -1⟩ 0 0 true = (true, ⟨1, 0, 0⟩, 0) ∧
    (intersectRayModel exactGlm twoDepthsModel 0 ⟨0, 0, -1⟩ 0 0 true).1 =
      (intersectRayModel exactGlm twoDepthsModel 0 ⟨0, 0, -1⟩ 0 0 false).1 :=
  ⟨(intersectRayModel_shadow exactGlm twoDepthsModel 0 ⟨0, 0, -1⟩ 0 0).1.trans (by decide!),
    (intersectRayModel_shadow exactGlm twoDepthsModel 0 ⟨0, 0, -1⟩ 0 0).2⟩

/-- C2, counterexample: in `farThenNearModel` the first triangle the ray
intersects belongs to the red mesh, yet the shadow-mode call reports the green
mesh of the second triangle. -/
theorem intersectRayModel_shadow_skips_far_triangle :
    ((modelTriangles farThenNearModel).find?
        (fun t => (rayParam exactGlm 0 slowRay t).isSome)).map
      (fun t => t.mesh.color.diffuse) = some ⟨1, 0, 0⟩ ∧
    intersectRayModel exactGlm farThenNearModel 0 slowRay 0 0 true = (true, ⟨0, 1, 0⟩, 0) := by
  decide!

/-! ## Properties of the pixel loops -/

theorem pixelColor_pixel_irrelevant (glm : Glm) (model : Model) (scene : Scene)
    (eye ray p p' : Vec3) :
    pixelColor glm model scene eye ray p = pixelColor glm model scene eye ray p' := rfl

theorem addRepeated_succ (d : Vec3) (n : Nat) (v : Vec3) :
    addRepeated d (n + 1) v = addRepeated d n (v + d) := rfl

theorem pixelBody_scene (glm : Glm) (eye : Vec3) (y x : Nat) (ray : Vec3) (rc : RayCaster) :
    (pixelBody glm eye y x ray rc).scene = rc.scene := rfl

theorem pixelBody_model (glm : Glm) (eye : Vec3) (y x : Nat) (ray : Vec3) (rc : RayCaster) :
    (pixelBody glm eye y x ray rc).model = rc.model := rfl

theorem row_length_of_wellSized {rc : RayCaster} (hw : rc.WellSized) {y : Nat}
    (hy : y < rc.scene.yres) : (rc.pixels.getD y []).length = rc.scene.xres := by
  obtain ⟨h1, h2, _⟩ := hw
  have hy' : y < rc.pixels.length := by omega
  rw [List.getD_eq_getElem?_getD, List.getElem?_eq_getElem hy']
  exact h2 _ (List.getElem_mem hy')

theorem pixelBody_wellSized (glm : Glm) (eye : Vec3) (y x : Nat) (ray : Vec3)
    {rc : RayCaster} (hw : rc.WellSized) (hy : y < rc.scene.yres) :
    (pixelBody glm eye y x ray rc).WellSized := by
  have hrow := row_length_of_wellSized hw hy
  obtain ⟨h1, h2, h3⟩ := hw
  refine ⟨by simpa [pixelBody] using h1, ?_, by simpa [pixelBody] using h3⟩
  intro row hrow'
  simp only [pixelBody] at hrow'
  rcases List.mem_or_eq_of_mem_set hrow' with h | h
  · exact h2 row h
  · rw [h, List.length_set]; exact hrow

theorem pixelAt_pixelBody (glm : Glm) (eye : Vec3) (y x : Nat) (ray : Vec3)
    {rc : RayCaster} (hw : rc.WellSized) (hy : y < rc.scene.yres) (hx : x < rc.scene.xres)
    (y' x' : Nat) :
    (pixelBody glm eye y x ray rc).pixelAt y' x' =
      if y' = y ∧ x' = x then some (pixelColor glm rc.model rc.scene eye ray 0)
      else rc.pixelAt y' x' := by
  have hrow := row_length_of_wellSized hw hy
  have hy' : y < rc.pixels.length := by rw [hw.1]; exact hy
  have hget : rc.pixels[y]? = some (rc.pixels.getD y []) := by
    rw [List.getD_eq_getElem?_getD, List.getElem?_eq_getElem hy']; rfl
  simp only [RayCaster.pixelAt, pixelBody, List.getElem?_set]
  by_cases h1 : y = y'
  · subst h1
    simp only [hy', if_true, Option.some_bind, List.getElem?_set, hrow, true_and]
    by_cases h2 : x = x'
    · subst h2
      simp only [hx, if_true]
      rw [pixelColor_pixel_irrelevant]
    · have h2' : ¬ x' = x := fun h => h2 h.symm
      simp only [h2, h2', if_false, hget, Option.some_bind]
  · have h1' : ¬ y' = y := fun h => h1 h.symm
    simp only [h1, h1', if_false, false_and]

/-- The three bytes of a colour as they are stored in `data`. -/
theorem toUint8_channel (p : Vec3) :
    toUint8 (p.channel 0 * 255) = toUint8 (p.x * 255) ∧
    toUint8 (p.channel 1 * 255) = toUint8 (p.y * 255) ∧
    toUint8 (p.channel 2 * 255) = toUint8 (p.z * 255) := by
  simp [Vec3.channel]

theorem row_block_le {xres yres y x : Nat} (hy : y < yres) (hx : x < xres) :
    (yres - y - 1) * xres + x < yres * xres := by
  have h1 : (yres - y - 1) * xres + xres ≤ yres * xres := by
    have : (yres - y - 1 + 1) * xres ≤ yres * xres := Nat.mul_le_mul_right _ (by omega)
    rwa [Nat.add_mul, Nat.one_mul] at this
  omega

theorem data_pixelBody (glm : Glm) (eye : Vec3) (y x : Nat) (ray : Vec3)
    {rc : RayCaster} (hw : rc.WellSized) (hy : y < rc.scene.yres) (hx : x < rc.scene.xres)
    (j : Nat) :
    (pixelBody glm eye y x ray rc).data[j]? =
      if j / 3 = (rc.scene.yres - y - 1) * rc.scene.xres + x then
        some (toUint8 ((pixelColor glm rc.model rc.scene eye ray 0).channel (j % 3) * 255))
      else rc.data[j]? := by
  have hlt := row_block_le hy hx
  have hlen : rc.data.length = rc.scene.yres * rc.scene.xres * 3 := hw.2.2
  generalize hq : (rc.scene.yres - y - 1) * rc.scene.xres + x = q at hlt ⊢
  simp only [pixelBody, dataIndex, Nat.add_zero, hq, List.getElem?_set, List.length_set]
  rw [pixelColor_pixel_irrelevant glm rc.model rc.scene eye ray _ 0]
  generalize pixelColor glm rc.model rc.scene eye ray 0 = P
  have hc := toUint8_channel P
  have hb : 3 * q + 2 < rc.scene.yres * rc.scene.xres * 3 := by omega
  by_cases h0 : j = 3 * q
  · subst h0
    have hd : 3 * q / 3 = q := by omega
    have hm : 3 * q % 3 = 0 := by omega
    have hb0 : 3 * q < rc.scene.yres * rc.scene.xres * 3 := by omega
    simp [hd, hm, hb0, hlen, hc.1]
  · by_cases h1 : j = 3 * q + 1
    · subst h1
      have hd : (3 * q + 1) / 3 = q := by omega
      have hm : (3 * q + 1) % 3 = 1 := by omega
      have hb1 : 3 * q + 1 < rc.scene.yres * rc.scene.xres * 3 := by omega
      simp [hd, hm, hb1, hlen, hc.2.1]
    · by_cases h2 : j = 3 * q + 2
      · subst h2
        have hd : (3 * q + 2) / 3 = q := by omega
        have hm : (3 * q + 2) % 3 = 2 := by omega
        simp [hd, hm, hb, hlen, hc.2.2]
      · have h4 : ¬ j / 3 = q := by omega
        have e0 : ¬ 3 * q = j := fun h => h0 h.symm
        have e1 : ¬ 3 * q + 1 = j := fun h => h1 h.symm
        have e2 : ¬ 3 * q + 2 = j := fun h => h2 h.symm
        simp [h4, e0, e1, e2]

/-- Effect of the loop over `x`: it leaves scene, model and sizes alone, and
rewrites exactly the pixels `x ≤ x' < x + n` of row `y` and their bytes. -/
theorem columnsLoop_spec (glm : Glm) (eye dx : Vec3) (y : Nat) :
    ∀ (n x : Nat) (ray : Vec3) (rc : RayCaster), rc.WellSized → y < rc.scene.yres →
      x + n ≤ rc.scene.xres →
      (columnsLoop glm eye dx y n x ray rc).scene = rc.scene ∧
      (columnsLoop glm eye dx y n x ray rc).model = rc.model ∧
      (columnsLoop glm eye dx y n x ray rc).WellSized ∧
      (∀ y' x', (columnsLoop glm eye dx y n x ray rc).pixelAt y' x' =
        if y' = y ∧ x ≤ x' ∧ x' < x + n then
          some (pixelColor glm rc.model rc.scene eye (addRepeated dx (x' - x) ray) 0)
        else rc.pixelAt y' x') ∧
      (∀ j, (columnsLoop glm eye dx y n x ray rc).data[j]? =
        if (rc.scene.yres - y - 1) * rc.scene.xres + x ≤ j / 3 ∧
            j / 3 < (rc.scene.yres - y - 1) * rc.scene.xres + x + n then
          some (toUint8 ((pixelColor glm rc.model rc.scene eye
            (addRepeated dx (j / 3 - ((rc.scene.yres - y - 1) * rc.scene.xres + x)) ray)
            0).channel (j % 3) * 255))
        else rc.data[j]?) := by
  intro n
  induction n with
  | zero =>
    intro x ray rc hw hy hx
    refine ⟨rfl, rfl, hw, ?_, ?_⟩
    · intro y' x'
      have : ¬ (y' = y ∧ x ≤ x' ∧ x' < x + 0) := by omega
      simp only [columnsLoop, this, if_false]
    · intro j
      have : ¬ ((rc.scene.yres - y - 1) * rc.scene.xres + x ≤ j / 3 ∧
          j / 3 < (rc.scene.yres - y - 1) * rc.scene.xres + x + 0) := by omega
      simp only [columnsLoop, this, if_false]
  | succ n ih =>
    intro x ray rc hw hy hx
    have hx' : x < rc.scene.xres := by omega
    have hw1 := pixelBody_wellSized glm eye y x ray hw hy
    obtain ⟨i1, i2, i3, i4, i5⟩ :=
      ih (x + 1) (ray + dx) (pixelBody glm eye y x ray rc) hw1 hy (by
        rw [pixelBody_scene]; omega)
    simp only [pixelBody_scene, pixelBody_model] at i1 i2 i4 i5
    simp only [columnsLoop]
    refine ⟨i1, i2, i3, ?_, ?_⟩
    · intro y' x'
      rw [i4, pixelAt_pixelBody glm eye y x ray hw hy hx']
      by_cases h1 : y' = y ∧ x + 1 ≤ x' ∧ x' < x + 1 + n
      · have h2 : y' = y ∧ x ≤ x' ∧ x' < x + (n + 1) := by omega
        have h3 : x' - x = (x' - (x + 1)) + 1 := by omega
        rw [if_pos h1, if_pos h2, h3, addRepeated_succ]
      · rw [if_neg h1]
        by_cases h2 : y' = y ∧ x' = x
        · have h3 : y' = y ∧ x ≤ x' ∧ x' < x + (n + 1) := by omega
          have h4 : x' - x = 0 := by omega
          rw [if_pos h2, if_pos h3, h4]; rfl
        · have h3 : ¬ (y' = y ∧ x ≤ x' ∧ x' < x + (n + 1)) := by omega
          rw [if_neg h2, if_neg h3]
    · intro j
      rw [i5, data_pixelBody glm eye y x ray hw hy hx']
      generalize (rc.scene.yres - y - 1) * rc.scene.xres = B
      by_cases h1 : B + (x + 1) ≤ j / 3 ∧ j / 3 < B + (x + 1) + n
      · have h2 : B + x ≤ j / 3 ∧ j / 3 < B + x + (n + 1) := by omega
        have h3 : j / 3 - (B + x) = (j / 3 - (B + (x + 1))) + 1 := by omega
        rw [if_pos h1, if_pos h2, h3, addRepeated_succ]
      · rw [if_neg h1]
        by_cases h2 : j / 3 = B + x
        · have h3 : B + x ≤ j / 3 ∧ j / 3 < B + x + (n + 1) := by omega
          have h4 : j / 3 - (B + x) = 0 := by omega
          rw [if_pos h2, if_pos h3, h4]; rfl
        · have h3 : ¬ (B + x ≤ j / 3 ∧ j / 3 < B + x + (n + 1)) := by omega
          rw [if_neg h2, if_neg h3]

theorem div_mod_of_block {a w p : Nat} (h1 : a * w ≤ p) (h2 : p < a * w + w) :
    p / w = a ∧ p % w = p - a * w := by
  have hw : 0 < w := by omega
  have hd : p / w = a := by
    apply Nat.div_eq_of_lt_le
    · exact h1
    · rw [Nat.succ_mul]; exact h2
  refine ⟨hd, ?_⟩
  have := Nat.div_add_mod p w
  rw [hd, Nat.mul_comm] at this
  omega

/-- Effect of the loop over `y`: it rewrites exactly the rows `y ≤ y' < y + n`
and their bytes. -/
theorem rowsLoop_spec (glm : Glm) (eye dy dx : Vec3) :
    ∀ (n y : Nat) (cur : Vec3) (rc : RayCaster), rc.WellSized → y + n ≤ rc.scene.yres →
      (rowsLoop glm eye dy dx n y cur rc).scene = rc.scene ∧
      (rowsLoop glm eye dy dx n y cur rc).model = rc.model ∧
      (rowsLoop glm eye dy dx n y cur rc).WellSized ∧
      (∀ y' x', (rowsLoop glm eye dy dx n y cur rc).pixelAt y' x' =
        if y ≤ y' ∧ y' < y + n ∧ x' < rc.scene.xres then
          some (pixelColor glm rc.model rc.scene eye
            (addRepeated dx x' (addRepeated dy (y' - y) cur)) 0)
        else rc.pixelAt y' x') ∧
      (∀ j, (rowsLoop glm eye dy dx n y cur rc).data[j]? =
        if (rc.scene.yres - y - n) * rc.scene.xres ≤ j / 3 ∧
            j / 3 < (rc.scene.yres - y) * rc.scene.xres then
          some (toUint8 ((pixelColor glm rc.model rc.scene eye
            (addRepeated dx (j / 3 % rc.scene.xres)
              (addRepeated dy (rc.scene.yres - 1 - j / 3 / rc.scene.xres - y) cur))
            0).channel (j % 3) * 255))
        else rc.data[j]?) := by
  intro n
  induction n with
  | zero =>
    intro y cur rc hw hy
    refine ⟨rfl, rfl, hw, ?_, ?_⟩
    · intro y' x'
      have : ¬ (y ≤ y' ∧ y' < y + 0 ∧ x' < rc.scene.xres) := by omega
      simp only [rowsLoop, this, if_false]
    · intro j
      have : ¬ ((rc.scene.yres - y - 0) * rc.scene.xres ≤ j / 3 ∧
          j / 3 < (rc.scene.yres - y) * rc.scene.xres) := by
        rw [Nat.sub_zero]; omega
      simp only [rowsLoop, this, if_false]
  | succ n ih =>
    intro y cur rc hw hy
    have hy' : y < rc.scene.yres := by omega
    obtain ⟨c1, c2, c3, c4, c5⟩ :=
      columnsLoop_spec glm eye dx y rc.scene.xres 0 cur rc hw hy' (by omega)
    obtain ⟨i1, i2, i3, i4, i5⟩ :=
      ih (y + 1) (cur + dy) (columnsLoop glm eye dx y rc.scene.xres 0 cur rc) c3 (by
        rw [c1]; omega)
    simp only [c1, c2] at i1 i2 i4 i5
    simp only [rowsLoop]
    refine ⟨i1, i2, i3, ?_, ?_⟩
    · intro y' x'
      rw [i4, c4]
      by_cases h1 : y + 1 ≤ y' ∧ y' < y + 1 + n ∧ x' < rc.scene.xres
      · have h2 : y ≤ y' ∧ y' < y + (n + 1) ∧ x' < rc.scene.xres := by omega
        have h3 : y' - y = (y' - (y + 1)) + 1 := by omega
        rw [if_pos h1, if_pos h2, h3, addRepeated_succ]
      · rw [if_neg h1]
        by_cases h2 : y' = y ∧ 0 ≤ x' ∧ x' < 0 + rc.scene.xres
        · have h3 : y ≤ y' ∧ y' < y + (n + 1) ∧ x' < rc.scene.xres := by omega
          have h4 : y' - y = 0 := by omega
          rw [if_pos h2, if_pos h3, h4, Nat.sub_zero]; rfl
        · have h3 : ¬ (y ≤ y' ∧ y' < y + (n + 1) ∧ x' < rc.scene.xres) := by omega
          rw [if_neg h2, if_neg h3]
    · intro j
      rw [i5, c5]
      have e1 : rc.scene.yres - y = (rc.scene.yres - y - 1) + 1 := by omega
      have e2 : rc.scene.yres - (y + 1) = rc.scene.yres - y - 1 := by omega
      have e3 : rc.scene.yres - y - (n + 1) = rc.scene.yres - y - 1 - n := by omega
      have hn : n ≤ rc.scene.yres - y - 1 := by omega
      have ha : rc.scene.yres - y - 1 + y + 1 = rc.scene.yres := by omega
      rw [e2, e3, e1, Nat.add_sub_cancel]
      generalize rc.scene.yres - y - 1 = a at hn ha ⊢
      have hmul : (a + 1) * rc.scene.xres = a * rc.scene.xres + rc.scene.xres := by
        rw [Nat.add_mul, Nat.one_mul]
      have hle : (a - n) * rc.scene.xres ≤ a * rc.scene.xres :=
        Nat.mul_le_mul_right _ (by omega)
      rw [hmul]
      by_cases h1 : (a - n) * rc.scene.xres ≤ j / 3 ∧ j / 3 < a * rc.scene.xres
      · have h2 : (a - n) * rc.scene.xres ≤ j / 3 ∧
            j / 3 < a * rc.scene.xres + rc.scene.xres := by omega
        have hpos : 0 < rc.scene.xres := by
          rcases Nat.eq_zero_or_pos rc.scene.xres with h | h
          · rw [h] at h1; omega
          · exact h
        have hdiv : j / 3 / rc.scene.xres < a := Nat.div_lt_of_lt_mul (by
          rw [Nat.mul_comm]; exact h1.2)
        have h3 : rc.scene.yres - 1 - j / 3 / rc.scene.xres - y =
            (rc.scene.yres - 1 - j / 3 / rc.scene.xres - (y + 1)) + 1 := by omega
        rw [if_pos h1, if_pos h2, h3, addRepeated_succ]
      · rw [if_neg h1]
        by_cases h2 : a * rc.scene.xres + 0 ≤ j / 3 ∧
            j / 3 < a * rc.scene.xres + 0 + rc.scene.xres
        · have h3 : (a - n) * rc.scene.xres ≤ j / 3 ∧
              j / 3 < a * rc.scene.xres + rc.scene.xres := by omega
          obtain ⟨hd, hm⟩ := div_mod_of_block (a := a) (w := rc.scene.xres) (p := j / 3)
            (by omega) (by omega)
          have h4 : rc.scene.yres - 1 - j / 3 / rc.scene.xres - y = 0 := by omega
          rw [if_pos h2, if_pos h3, h4, hm, Nat.add_zero]; rfl
        · have h3 : ¬ ((a - n) * rc.scene.xres ≤ j / 3 ∧
              j / 3 < a * rc.scene.xres + rc.scene.xres) := by omega
          rw [if_neg h2, if_neg h3]

/-! ## Properties of `rayTrace` -/

theorem dataIndex_decode {scene : Scene} {y x c : Nat} (hy : y < scene.yres)
    (hx : x < scene.xres) (hc : c < 3) :
    dataIndex scene y x c < scene.yres * scene.xres * 3 ∧
    dataIndex scene y x c / 3 < scene.yres * scene.xres ∧
    dataIndex scene y x c % 3 = c ∧
    dataIndex scene y x c / 3 % scene.xres = x ∧
    scene.yres - 1 - dataIndex scene y x c / 3 / scene.xres = y := by
  have hlt := row_block_le hy hx
  unfold dataIndex
  have hq : (3 * ((scene.yres - y - 1) * scene.xres + x) + c) / 3 =
      (scene.yres - y - 1) * scene.xres + x := by omega
  obtain ⟨hd, hm⟩ := div_mod_of_block (a := scene.yres - y - 1) (w := scene.xres)
    (p := (scene.yres - y - 1) * scene.xres + x) (by omega) (by omega)
  rw [hq, hd, hm]
  refine ⟨by omega, hlt, by omega, by omega, by omega⟩

/-- What `rayTrace` leaves in the buffers: scene, model and sizes are kept;
pixel `(x, y)` holds the colour computed for its primary ray, and the byte at
`dataIndex y x c` is the conversion of channel `c` of that colour. -/
theorem rayTrace_spec (glm : Glm) (rc : RayCaster) (hw : rc.WellSized)
    (eye center up : Vec3) (yview : ℚ) :
    (rayTrace glm rc eye center up yview).scene = rc.scene ∧
    (rayTrace glm rc eye center up yview).model = rc.model ∧
    (rayTrace glm rc eye center up yview).WellSized ∧
    (∀ y x, y < rc.scene.yres → x < rc.scene.xres →
      (rayTrace glm rc eye center up yview).pixelAt y x =
        some (pixelColor glm rc.model rc.scene eye
          (primaryRay glm rc.scene eye center up yview y x) 0)) ∧
    (∀ j, j < rc.scene.yres * rc.scene.xres * 3 →
      (rayTrace glm rc eye center up yview).data[j]? =
        some (toUint8 ((pixelColor glm rc.model rc.scene eye
          (primaryRay glm rc.scene eye center up yview
            (rc.scene.yres - 1 - j / 3 / rc.scene.xres) (j / 3 % rc.scene.xres))
          0).channel (j % 3) * 255))) := by
  obtain ⟨h1, h2, h3, h4, h5⟩ := rowsLoop_spec glm eye
    (rayBasis glm rc.scene eye center up yview).dy (rayBasis glm rc.scene eye center up yview).dx
    rc.scene.yres 0 (rayBasis glm rc.scene eye center up yview).current rc hw (by omega)
  refine ⟨h1, h2, h3, ?_, ?_⟩
  · intro y x hy hx
    have hc : 0 ≤ y ∧ y < 0 + rc.scene.yres ∧ x < rc.scene.xres := by omega
    simp only [rayTrace]
    rw [h4, if_pos hc, Nat.sub_zero]
    rfl
  · intro j hj
    have hc : (rc.scene.yres - 0 - rc.scene.yres) * rc.scene.xres ≤ j / 3 ∧
        j / 3 < (rc.scene.yres - 0) * rc.scene.xres := by
      rw [Nat.sub_zero, Nat.sub_self, Nat.zero_mul]; omega
    simp only [rayTrace]
    rw [h5, if_pos hc, Nat.sub_zero]
    rfl

/-- The byte of channel `c` of pixel `(x, y)` after `rayTrace`. -/
theorem rayTrace_data_at (glm : Glm) (rc : RayCaster) (hw : rc.WellSized)
    (eye center up : Vec3) (yview : ℚ) {y x c : Nat} (hy : y < rc.scene.yres)
    (hx : x < rc.scene.xres) (hc : c < 3) :
    (rayTrace glm rc eye center up yview).data[dataIndex rc.scene y x c]? =
      some (toUint8 ((pixelColor glm rc.model rc.scene eye
        (primaryRay glm rc.scene eye center up yview y x) 0).channel c * 255)) := by
  obtain ⟨d1, _, d3, d4, d5⟩ := dataIndex_decode hy hx hc
  rw [(rayTrace_spec glm rc hw eye center up yview).2.2.2.2 _ d1, d3, d4, d5]

/-! ### Vector algebra -/

theorem Vec3.add_x (a b : Vec3) : (a + b).x = a.x + b.x := rfl
theorem Vec3.add_y (a b : Vec3) : (a + b).y = a.y + b.y := rfl
theorem Vec3.add_z (a b : Vec3) : (a + b).z = a.z + b.z := rfl
theorem Vec3.smul_x (s : ℚ) (v : Vec3) : (s * v).x = s * v.x := rfl
theorem Vec3.smul_y (s : ℚ) (v : Vec3) : (s * v).y = s * v.y := rfl
theorem Vec3.smul_z (s : ℚ) (v : Vec3) : (s * v).z = s * v.z := rfl
theorem Mat3.mulVec_eq (m : Mat3) (v : Vec3) :
    m * v = v.x * m.c0 + v.y * m.c1 + v.z * m.c2 := rfl
theorem Mat3.smul_c0 (s : ℚ) (m : Mat3) : (s * m).c0 = s * m.c0 := rfl
theorem Mat3.smul_c1 (s : ℚ) (m : Mat3) : (s * m).c1 = s * m.c1 := rfl
theorem Mat3.smul_c2 (s : ℚ) (m : Mat3) : (s * m).c2 = s * m.c2 := rfl

theorem Vec3.ext_iff' (a b : Vec3) : a = b ↔ a.x = b.x ∧ a.y = b.y ∧ a.z = b.z := by
  cases a; cases b; simp

/-- Repeated addition in closed form. -/
theorem addRepeated_eq (d : Vec3) : ∀ (n : Nat) (v : Vec3),
    addRepeated d n v = v + (n : ℚ) * d
  | 0, v => by
    rw [Vec3.ext_iff']
    simp [addRepeated, Vec3.add_x, Vec3.add_y, Vec3.add_z, Vec3.smul_x, Vec3.smul_y,
      Vec3.smul_z]
  | n + 1, v => by
    rw [addRepeated, addRepeated_eq d n (v + d), Vec3.ext_iff']
    simp only [Vec3.add_x, Vec3.add_y, Vec3.add_z, Vec3.smul_x, Vec3.smul_y, Vec3.smul_z]
    push_cast
    refine ⟨by ring, by ring, by ring⟩

/-! ## Ray generation -/

/-- C7.  For every pixel `(x, y)` with `x < xres` and `y < yres`, the direction
that the loops of `rayTrace` reach by repeated addition of `dx` and `dy` is
`R * (-X + (2x+1) X / xres, Y - (2y+1) Y / yres, -1)` with `Y = 0.5 * yview`,
`X = Y * xres / yres` and `R` the inverse look-at rotation, and the pixel is
shaded with the ray from `eye` in that direction. -/
theorem rayTrace_primary_ray (glm : Glm) (rc : RayCaster) (eye center up : Vec3) (yview : ℚ)
    (y x : Nat) (hw : rc.WellSized) (hy : y < rc.scene.yres) (hx : x < rc.scene.xres) :
    primaryRay glm rc.scene eye center up yview y x =
      glm.lookAtInverse eye center up * pixelCentre rc.scene yview y x ∧
    (rayTrace glm rc eye center up yview).pixelAt y x =
      some (pixelColor glm rc.model rc.scene eye
        (glm.lookAtInverse eye center up * pixelCentre rc.scene yview y x) 0) := by
  have h : primaryRay glm rc.scene eye center up yview y x =
      glm.lookAtInverse eye center up * pixelCentre rc.scene yview y x := by
    unfold primaryRay rayBasis pixelCentre
    simp only [addRepeated_eq]
    rw [Vec3.ext_iff']
    simp only [Vec3.add_x, Vec3.add_y, Vec3.add_z, Vec3.smul_x, Vec3.smul_y, Vec3.smul_z,
      Mat3.mulVec_eq, Mat3.smul_c0, Mat3.smul_c1, Mat3.smul_c2]
    refine ⟨by ring, by ring, by ring⟩
  refine ⟨h, ?_⟩
  rw [← h]
  exact (rayTrace_spec glm rc hw eye center up yview).2.2.2.1 y x hy hx

/-- C7, instance: the right pixel of the lower row of a 3 by 2 image. -/
theorem rayTrace_primary_ray_witness :
    primaryRay exactGlm twoDepthsCaster.scene eye0 center0 up0 1 1 2 =
      exactGlm.lookAtInverse eye0 center0 up0 * pixelCentre twoDepthsCaster.scene 1 1 2 ∧
    (rayTrace exactGlm twoDepthsCaster eye0 center0 up0 1).pixelAt 1 2 =
      some (pixelColor exactGlm twoDepthsCaster.model twoDepthsCaster.scene eye0
        (exactGlm.lookAtInverse eye0 center0 up0 * pixelCentre twoDepthsCaster.scene 1 1 2) 0) :=
  rayTrace_primary_ray exactGlm twoDepthsCaster eye0 center0 up0 1 1 2
    (by decide) (by decide) (by decide)

/-! ## Byte conversion -/

theorem toUint8_lt (f : ℚ) : toUint8 f < 256 := by
  unfold toUint8
  have h1 : 0 ≤ truncate f % 256 := Int.emod_nonneg _ (by norm_num)
  have h2 : truncate f % 256 < 256 := Int.emod_lt_of_pos _ (by norm_num)
  omega

/-- Inside the range where the cast is defined, converting a channel is the
same as converting the clamped channel. -/
theorem toUint8_eq_clamp (v : ℚ) (hlo : -1 < v * 255) (hhi : v * 255 < 256) :
    toUint8 (v * 255) = (truncate (clamp01 v * 255)).toNat := by
  unfold toUint8 truncate clamp01
  rcases lt_or_le v 0 with hneg | hnn
  · have h1 : ¬ (0 ≤ v * 255) := by
      intro h; nlinarith
    have h2 : ⌈v * 255⌉ = 0 := by
      rw [Int.ceil_eq_iff]; constructor <;> push_cast <;> linarith
    have h3 : max 0 (min v 1) = 0 := by
      rw [max_eq_left]; exact le_trans (min_le_left _ _) hneg.le
    simp [h1, h2, h3]
  · have h1 : 0 ≤ v * 255 := by positivity
    rcases le_or_lt v 1 with hle | hgt
    · have h3 : max 0 (min v 1) = v := by
        rw [min_eq_left hle, max_eq_right hnn]
      have h4 : 0 ≤ ⌊v * 255⌋ := Int.floor_nonneg.2 h1
      have h5 : ⌊v * 255⌋ < 256 := by
        rw [Int.floor_lt]; push_cast; exact hhi
      rw [h3, if_pos h1, Int.emod_eq_of_lt h4 h5]
    · have h3 : max 0 (min v 1) = 1 := by
        rw [min_eq_right hgt.le, max_eq_right (by norm_num)]
      have h4 : ⌊v * 255⌋ = 255 := by
        rw [Int.floor_eq_iff]; constructor <;> push_cast <;> linarith
      rw [h3, if_pos h1, h4]
      norm_num

/-- C3 (amended).  After `rayTrace`, for every pixel `(x, y)` in range and every
channel `c`, the byte `data[3*((yres-1-y)*xres + x) + c]` is the cast to
`uint8_t` of `pixels[y][x].c * 255`; no clamp is applied.  Whenever that
product lies strictly between `-1` and `256`, in particular for every channel
value in `[0, 1]`, the byte equals `clamp(pixels[y][x].c, 0, 1) * 255`
truncated toward zero. -/
theorem rayTrace_bytes (glm : Glm) (rc : RayCaster) (eye center up : Vec3) (yview : ℚ)
    (y x c : Nat) (p : Vec3) (hw : rc.WellSized) (hy : y < rc.scene.yres)
    (hx : x < rc.scene.xres) (hc : c < 3)
    (hp : (rayTrace glm rc eye center up yview).pixelAt y x = some p) :
    (rayTrace glm rc eye center up yview).data[dataIndex rc.scene y x c]? =
      some (toUint8 (p.channel c * 255)) ∧
    (-1 < p.channel c * 255 → p.channel c * 255 < 256 →
      (rayTrace glm rc eye center up yview).data[dataIndex rc.scene y x c]? =
        some (truncate (clamp01 (p.channel c) * 255)).toNat) := by
  have hpix := (rayTrace_spec glm rc hw eye center up yview).2.2.2.1 y x hy hx
  rw [hp] at hpix
  have hbyte := rayTrace_data_at glm rc hw eye center up yview hy hx hc
  rw [← Option.some.inj hpix] at hbyte
  refine ⟨hbyte, ?_⟩
  intro hlo hhi
  rw [hbyte, toUint8_eq_clamp _ hlo hhi]

/-- C3, instance: the green channel of the middle pixel of the upper row. -/
theorem rayTrace_bytes_witness :
    (rayTrace exactGlm twoDepthsCaster eye0 center0 up0 1).data[
        dataIndex twoDepthsCaster.scene 0 1 1]? =
      some (toUint8 ((⟨0, 1, 0⟩ : Vec3).channel 1 * 255)) ∧
    (-1 < (⟨0, 1, 0⟩ : Vec3).channel 1 * 255 → (⟨0, 1, 0⟩ : Vec3).channel 1 * 255 < 256 →
      (rayTrace exactGlm twoDepthsCaster eye0 center0 up0 1).data[
          dataIndex twoDepthsCaster.scene 0 1 1]? =
        some (truncate (clamp01 ((⟨0, 1, 0⟩ : Vec3).channel 1) * 255)).toNat) :=
  rayTrace_bytes exactGlm twoDepthsCaster eye0 center0 up0 1 0 1 1 ⟨0, 1, 0⟩
    (by decide) (by decide) (by decide) (by decide) (by decide!)

/-- C3, counterexample: a mesh whose diffuse red channel is `2` leaves `2` in
the float grid and `254` in the byte buffer, while the clamped formula gives
`255`. -/
theorem rayTrace_bytes_not_clamped :
    (rayTrace exactGlm brightCaster eye0 center0 up0 1).pixelAt 0 0 = some ⟨2, 0, 0⟩ ∧
    (rayTrace exactGlm brightCaster eye0 center0 up0 1).data[
        dataIndex brightCaster.scene 0 0 0]? = some 254 ∧
    (truncate (clamp01 ((⟨2, 0, 0⟩ : Vec3).channel 0) * 255)).toNat = 255 := by
  decide!

/-! ## Shading -/

theorem lightsLoop_white (glm : Glm) (eye ray : Vec3) :
    ∀ lights : List Light, lightsLoop glm eye ray lights ⟨1, 1, 1⟩ = ⟨1, 1, 1⟩
  | [] => rfl
  | light :: rest => by
    simp only [lightsLoop, ite_self]
    exact lightsLoop_white glm eye ray rest

theorem lightsLoop_of_collinear (glm : Glm) (eye ray : Vec3) :
    ∀ (lights : List Light) (pixel : Vec3),
      (∃ light ∈ lights, glm.areCollinear ray (light.position - eye) (5 / 1000) = true) →
      lightsLoop glm eye ray lights pixel = ⟨1, 1, 1⟩
  | [], _, h => by
    obtain ⟨_, hm, _⟩ := h
    cases hm
  | light :: rest, pixel, h => by
    simp only [lightsLoop]
    by_cases hc : glm.areCollinear ray (light.position - eye) (5 / 1000) = true
    · rw [if_pos hc]; exact lightsLoop_white glm eye ray rest
    · obtain ⟨l, hm, hl⟩ := h
      rcases List.mem_cons.1 hm with rfl | hm
      · exact absurd hl hc
      · exact lightsLoop_of_collinear glm eye ray rest _ ⟨l, hm, hl⟩

theorem lightsLoop_of_not_collinear (glm : Glm) (eye ray : Vec3) :
    ∀ (lights : List Light) (pixel : Vec3),
      (∀ light ∈ lights, glm.areCollinear ray (light.position - eye) (5 / 1000) = false) →
      lightsLoop glm eye ray lights pixel = pixel
  | [], _, _ => rfl
  | light :: rest, pixel, h => by
    simp only [lightsLoop, h light (List.mem_cons_self _ _), Bool.false_eq_true, if_false]
    exact lightsLoop_of_not_collinear glm eye ray rest pixel
      (fun l hl => h l (List.mem_cons_of_mem _ hl))

theorem shadowLoop_cons (glm : Glm) (model : Model) (P : Vec3) (light : Light)
    (rest : List Light) (pixel : Vec3) :
    shadowLoop glm model P (light :: rest) pixel =
      shadowLoop glm model P rest
        (if (castShadowRay glm model P light).1 then
          (1 / 2 : ℚ) * (castShadowRay glm model P light).2.1
         else pixel) := rfl

theorem shadowLoop_unoccluded (glm : Glm) (model : Model) (P : Vec3) :
    ∀ (lights : List Light) (pixel : Vec3),
      (∀ light ∈ lights, (castShadowRay glm model P light).1 = false) →
      shadowLoop glm model P lights pixel = pixel
  | [], _, _ => rfl
  | light :: rest, pixel, h => by
    rw [shadowLoop_cons, h light (List.mem_cons_self _ _)]
    simp only [Bool.false_eq_true, if_false]
    exact shadowLoop_unoccluded glm model P rest pixel
      (fun l hl => h l (List.mem_cons_of_mem _ hl))

theorem shadowLoop_last_occluded (glm : Glm) (model : Model) (P : Vec3) (light : Light)
    (post : List Light) (hlight : (castShadowRay glm model P light).1 = true)
    (hpost : ∀ l ∈ post, (castShadowRay glm model P l).1 = false) :
    ∀ (pre : List Light) (pixel : Vec3),
      shadowLoop glm model P (pre ++ light :: post) pixel =
        (1 / 2 : ℚ) * (castShadowRay glm model P light).2.1
  | [], pixel => by
    rw [List.nil_append, shadowLoop_cons, hlight, if_pos rfl]
    exact shadowLoop_unoccluded glm model P post _ hpost
  | l :: pre, pixel => by
    rw [List.cons_append, shadowLoop_cons]
    exact shadowLoop_last_occluded glm model P light post hlight hpost pre _

theorem pixelColor_empty (glm : Glm) (model : Model) (scene : Scene) (eye ray pixel : Vec3)
    (hm : model.meshes = []) (hl : scene.lights = []) :
    pixelColor glm model scene eye ray pixel = ⟨0, 0, 0⟩ := by
  simp [pixelColor, intersectRayModel, hm, hl, meshesLoop, lightsLoop]

theorem toUint8_zero : toUint8 (0 * 255) = 0 := by decide!

theorem toUint8_one : toUint8 (1 * 255) = 255 := by decide!

theorem channel_const (a : ℚ) (c : Nat) : (⟨a, a, a⟩ : Vec3).channel c = a := by
  unfold Vec3.channel; split_ifs <;> rfl

/-- C5.  For every camera and every resolution, `rayTrace` on a scene with zero
meshes and zero lights leaves every `pixels[y][x]` equal to `(0, 0, 0)` and
every byte of `data` equal to `0`. -/
theorem rayTrace_empty_scene (glm : Glm) (rc : RayCaster) (eye center up : Vec3) (yview : ℚ)
    (hw : rc.WellSized) (hm : rc.model.meshes = []) (hl : rc.scene.lights = []) :
    (∀ y x, y < rc.scene.yres → x < rc.scene.xres →
      (rayTrace glm rc eye center up yview).pixelAt y x = some ⟨0, 0, 0⟩) ∧
    (∀ j, j < (rayTrace glm rc eye center up yview).data.length →
      (rayTrace glm rc eye center up yview).data[j]? = some 0) := by
  obtain ⟨h1, _, h3, h4, h5⟩ := rayTrace_spec glm rc hw eye center up yview
  constructor
  · intro y x hy hx
    rw [h4 y x hy hx, pixelColor_empty glm rc.model rc.scene eye _ _ hm hl]
  · intro j hj
    rw [h3.2.2, h1] at hj
    rw [h5 j hj, pixelColor_empty glm rc.model rc.scene eye _ _ hm hl, channel_const,
      toUint8_zero]

/-- C5, instance: the empty scene at 2 by 2 pixels. -/
theorem rayTrace_empty_scene_witness :
    (∀ y x, y < emptyCaster.scene.yres → x < emptyCaster.scene.xres →
      (rayTrace exactGlm emptyCaster eye0 center0 up0 1).pixelAt y x = some ⟨0, 0, 0⟩) ∧
    (∀ j, j < (rayTrace exactGlm emptyCaster eye0 center0 up0 1).data.length →
      (rayTrace exactGlm emptyCaster eye0 center0 up0 1).data[j]? = some 0) :=
  rayTrace_empty_scene exactGlm emptyCaster eye0 center0 up0 1 (by decide) rfl rfl

/-- C6.  A pixel whose primary ray direction passes the collinearity test
against `light.position - eye` for some light of the scene ends as `(1, 1, 1)`
with its three bytes `255`, whatever the primary hit and the shadow rays
gave. -/
theorem rayTrace_light_overrides (glm : Glm) (rc : RayCaster) (eye center up : Vec3)
    (yview : ℚ) (y x : Nat) (light : Light) (hw : rc.WellSized) (hy : y < rc.scene.yres)
    (hx : x < rc.scene.xres) (hl : light ∈ rc.scene.lights)
    (hcol : glm.areCollinear (primaryRay glm rc.scene eye center up yview y x)
      (light.position - eye) (5 / 1000) = true) :
    (rayTrace glm rc eye center up yview).pixelAt y x = some ⟨1, 1, 1⟩ ∧
    ∀ c, c < 3 →
      (rayTrace glm rc eye center up yview).data[dataIndex rc.scene y x c]? = some 255 := by
  have hcolor : pixelColor glm rc.model rc.scene eye
      (primaryRay glm rc.scene eye center up yview y x) 0 = ⟨1, 1, 1⟩ := by
    unfold pixelColor
    exact lightsLoop_of_collinear glm eye _ rc.scene.lights _ ⟨light, hl, hcol⟩
  constructor
  · rw [(rayTrace_spec glm rc hw eye center up yview).2.2.2.1 y x hy hx, hcolor]
  · intro c hc
    rw [rayTrace_data_at glm rc hw eye center up yview hy hx hc, hcolor, channel_const,
      toUint8_one]

/-- C6, instance: in `litCaster` the shadow ray of the pixel is blocked (the
shadow loop leaves half of green) and the pixel still ends white. -/
theorem rayTrace_light_overrides_witness :
    shadowLoop exactGlm litCaster.model ⟨0, 0, -5⟩ litCaster.scene.lights ⟨1, 0, 0⟩ =
      ⟨0, 1 / 2, 0⟩ ∧
    (rayTrace exactGlm litCaster eye0 center0 up0 1).pixelAt 0 0 = some ⟨1, 1, 1⟩ ∧
    ∀ c, c < 3 →
      (rayTrace exactGlm litCaster eye0 center0 up0 1).data[
        dataIndex litCaster.scene 0 0 c]? = some 255 :=
  ⟨by decide!, rayTrace_light_overrides exactGlm litCaster eye0 center0 up0 1 0 0
    ⟨⟨0, 0, -10⟩⟩ (by decide) (by decide) (by decide) (by decide) (by decide!)⟩

/-! ## Shadows -/

theorem withShadowFlag_wellSized {rc : RayCaster} (hw : rc.WellSized) (k : Bool) :
    (withShadowFlag rc k).WellSized := hw

/-- The colour of a pixel whose shadow rays all miss does not depend on the
shadow flag. -/
theorem pixelColor_flag_irrelevant (glm : Glm) (model : Model) (scene : Scene)
    (eye ray : Vec3)
    (hun : ∀ light ∈ scene.lights,
      (intersectRayModel glm model eye ray 0 default false).1 = true →
      (castShadowRay glm model (intersectRayModel glm model eye ray 0 default false).2.2
        light).1 = false) :
    pixelColor glm model { scene with k := false } eye ray 0 =
      pixelColor glm model { scene with k := true } eye ray 0 := by
  unfold pixelColor
  simp only [Bool.and_false, Bool.and_true, Bool.false_eq_true, if_false]
  by_cases hhit : (intersectRayModel glm model eye ray 0 default false).1 = true
  · rw [if_pos hhit, shadowLoop_unoccluded glm model _ scene.lights _
      (fun l hl => hun l hl hhit)]
  · rw [if_neg hhit]

/-- C8.  If, in the render with the shadow flag set, no shadow ray cast from the
primary hit of pixel `(x, y)` hits anything, then the render with the flag
cleared gives that pixel the same float colour and the same three bytes. -/
theorem rayTrace_shadow_flag (glm : Glm) (rc : RayCaster) (eye center up : Vec3)
    (yview : ℚ) (y x : Nat) (hw : rc.WellSized) (hy : y < rc.scene.yres)
    (hx : x < rc.scene.xres)
    (hun : ∀ light ∈ rc.scene.lights,
      (intersectRayModel glm rc.model eye
        (primaryRay glm rc.scene eye center up yview y x) 0 default false).1 = true →
      (castShadowRay glm rc.model
        (intersectRayModel glm rc.model eye
          (primaryRay glm rc.scene eye center up yview y x) 0 default false).2.2
        light).1 = false) :
    (rayTrace glm (withShadowFlag rc false) eye center up yview).pixelAt y x =
      (rayTrace glm (withShadowFlag rc true) eye center up yview).pixelAt y x ∧
    ∀ c, c < 3 →
      (rayTrace glm (withShadowFlag rc false) eye center up yview).data[
          dataIndex rc.scene y x c]? =
        (rayTrace glm (withShadowFlag rc true) eye center up yview).data[
          dataIndex rc.scene y x c]? := by
  have hcol := pixelColor_flag_irrelevant glm rc.model rc.scene eye
    (primaryRay glm rc.scene eye center up yview y x) hun
  have hoff := rayTrace_spec glm (withShadowFlag rc false) (withShadowFlag_wellSized hw false)
    eye center up yview
  have hon := rayTrace_spec glm (withShadowFlag rc true) (withShadowFlag_wellSized hw true)
    eye center up yview
  constructor
  · rw [hoff.2.2.2.1 y x hy hx, hon.2.2.2.1 y x hy hx]
    exact congrArg some hcol
  · intro c hc
    have e1 := rayTrace_data_at glm (withShadowFlag rc false)
      (withShadowFlag_wellSized hw false) eye center up yview (y := y) (x := x) (c := c)
      hy hx hc
    have e2 := rayTrace_data_at glm (withShadowFlag rc true)
      (withShadowFlag_wellSized hw true) eye center up yview (y := y) (x := x) (c := c)
      hy hx hc
    have d1 : dataIndex (withShadowFlag rc false).scene y x c = dataIndex rc.scene y x c := rfl
    have d2 : dataIndex (withShadowFlag rc true).scene y x c = dataIndex rc.scene y x c := rfl
    rw [d1] at e1
    rw [d2] at e2
    rw [e1, e2]
    exact congrArg (fun p : Vec3 => some (toUint8 (p.channel c * 255))) hcol

/-- C8, instance: the pixel of `openCaster`, whose light nothing hides. -/
theorem rayTrace_shadow_flag_witness :
    (rayTrace exactGlm (withShadowFlag openCaster false) eye0 center0 up0 1).pixelAt 0 0 =
      (rayTrace exactGlm (withShadowFlag openCaster true) eye0 center0 up0 1).pixelAt 0 0 ∧
    ∀ c, c < 3 →
      (rayTrace exactGlm (withShadowFlag openCaster false) eye0 center0 up0 1).data[
          dataIndex openCaster.scene 0 0 c]? =
        (rayTrace exactGlm (withShadowFlag openCaster true) eye0 center0 up0 1).data[
          dataIndex openCaster.scene 0 0 c]? :=
  rayTrace_shadow_flag exactGlm openCaster eye0 center0 up0 1 0 0 (by decide) (by decide)
    (by decide) (by decide!)

/-- C9.  With the shadow flag set, for a pixel whose primary ray hits at `P`
and for which no light passes the collinearity test: if the lights split as
`pre ++ light :: post` where the secondary ray toward `light` (origin
`P + 0.0001 * (L - P)`, direction `L - P`) hits and those toward the lights of
`post` do not, the pixel ends as `0.5` times the colour reported for `light`;
if no secondary ray hits, the pixel keeps the colour of the primary hit. -/
theorem rayTrace_shadow_overwrite (glm : Glm) (rc : RayCaster) (eye center up : Vec3)
    (yview : ℚ) (y x : Nat) (hw : rc.WellSized) (hy : y < rc.scene.yres)
    (hx : x < rc.scene.xres) (hk : rc.scene.k = true)
    (hhit : (intersectRayModel glm rc.model eye
      (primaryRay glm rc.scene eye center up yview y x) 0 default false).1 = true)
    (hnc : ∀ light ∈ rc.scene.lights,
      glm.areCollinear (primaryRay glm rc.scene eye center up yview y x)
        (light.position - eye) (5 / 1000) = false) :
    (∀ pre light post, rc.scene.lights = pre ++ light :: post →
      (castShadowRay glm rc.model
        (intersectRayModel glm rc.model eye
          (primaryRay glm rc.scene eye center up yview y x) 0 default false).2.2
        light).1 = true →
      (∀ l ∈ post, (castShadowRay glm rc.model
        (intersectRayModel glm rc.model eye
          (primaryRay glm rc.scene eye center up yview y x) 0 default false).2.2 l).1 = false) →
      (rayTrace glm rc eye center up yview).pixelAt y x =
        some ((1 / 2 : ℚ) * (castShadowRay glm rc.model
          (intersectRayModel glm rc.model eye
            (primaryRay glm rc.scene eye center up yview y x) 0 default false).2.2
          light).2.1)) ∧
    ((∀ l ∈ rc.scene.lights, (castShadowRay glm rc.model
        (intersectRayModel glm rc.model eye
          (primaryRay glm rc.scene eye center up yview y x) 0 default false).2.2 l).1 = false) →
      (rayTrace glm rc eye center up yview).pixelAt y x =
        some (intersectRayModel glm rc.model eye
          (primaryRay glm rc.scene eye center up yview y x) 0 default false).2.1) := by
  have hpix := (rayTrace_spec glm rc hw eye center up yview).2.2.2.1 y x hy hx
  have hcolor : pixelColor glm rc.model rc.scene eye
      (primaryRay glm rc.scene eye center up yview y x) 0 =
      shadowLoop glm rc.model
        (intersectRayModel glm rc.model eye
          (primaryRay glm rc.scene eye center up yview y x) 0 default false).2.2
        rc.scene.lights
        (intersectRayModel glm rc.model eye
          (primaryRay glm rc.scene eye center up yview y x) 0 default false).2.1 := by
    unfold pixelColor
    simp only [hhit, hk, Bool.and_self, if_true]
    exact lightsLoop_of_not_collinear glm eye _ rc.scene.lights _ hnc
  rw [hpix, hcolor]
  constructor
  · intro pre light post hsplit hl hpost
    rw [hsplit, shadowLoop_last_occluded glm rc.model _ light post hl hpost pre]
  · intro hnone
    rw [shadowLoop_unoccluded glm rc.model _ rc.scene.lights _ hnone]

/-- C9, instance: in `occludedCaster` both lights are hidden, the first by the
green triangle and the second by the blue one; the pixel ends as half of
blue. -/
theorem rayTrace_shadow_overwrite_witness :
    (castShadowRay exactGlm occludedCaster.model ⟨0, 0, -5⟩ lightBehind).2.1 = ⟨0, 1, 0⟩ ∧
    (castShadowRay exactGlm occludedCaster.model ⟨0, 0, -5⟩ lightInFront).2.1 = ⟨0, 0, 1⟩ ∧
    (rayTrace exactGlm occludedCaster eye0 center0 up0 1).pixelAt 0 0 =
      some ((1 / 2 : ℚ) * (castShadowRay exactGlm occludedCaster.model
        (intersectRayModel exactGlm occludedCaster.model eye0
          (primaryRay exactGlm occludedCaster.scene eye0 center0 up0 1 0 0) 0 default
          false).2.2 lightInFront).2.1) ∧
    (rayTrace exactGlm occludedCaster eye0 center0 up0 1).pixelAt 0 0 = some ⟨0, 0, 1 / 2⟩ :=
  ⟨by decide!, by decide!,
    (rayTrace_shadow_overwrite exactGlm occludedCaster eye0 center0 up0 1 0 0 (by decide)
      (by decide) (by decide) rfl (by decide!) (by decide!)).1 [lightBehind] lightInFront []
      rfl (by decide!) (by decide!),
    by decide!⟩

/-! ## The byte buffer and its export -/

theorem pixelAt_eq_getElem (rs : RayCaster) {y x : Nat} (hy : y < rs.pixels.length)
    (hx : x < (rs.pixels[y]).length) : rs.pixelAt y x = some ((rs.pixels[y])[x]) := by
  simp [RayCaster.pixelAt, List.getElem?_eq_getElem hy, List.getElem?_eq_getElem hx]

theorem ppmPixel_eq (rs : RayCaster) (hc : Consistent rs) {y x : Nat} {p : Vec3}
    (hy : y < rs.scene.yres) (hx : x < rs.scene.xres)
    (hp : rs.pixelAt (rs.scene.yres - 1 - y) x = some p) :
    ppmPixel rs y x = ppmTriplet p := by
  have hy' : rs.scene.yres - 1 - y < rs.scene.yres := by omega
  have hidx : ∀ c, dataIndex rs.scene (rs.scene.yres - 1 - y) x c =
      3 * (rs.scene.xres * y + x) + c := by
    intro c
    unfold dataIndex
    have : rs.scene.yres - (rs.scene.yres - 1 - y) - 1 = y := by omega
    rw [this, Nat.mul_comm y]
  have h0 := hc _ x 0 p hy' hx (by omega) hp
  have h1 := hc _ x 1 p hy' hx (by omega) hp
  have h2 := hc _ x 2 p hy' hx (by omega) hp
  rw [hidx] at h0 h1 h2
  rw [Nat.add_zero] at h0
  obtain ⟨c0, c1, c2⟩ := toUint8_channel p
  unfold ppmPixel ppmTriplet
  simp only [List.getD_eq_getElem?_getD, h0, h1, h2, Option.getD_some, c0, c1, c2]

theorem ppmColumns_eq (rs : RayCaster) (hc : Consistent rs) {y : Nat}
    (hy : y < rs.scene.yres) (hlen : rs.scene.yres - 1 - y < rs.pixels.length)
    (hrow : (rs.pixels[rs.scene.yres - 1 - y]).length = rs.scene.xres) :
    ∀ n x, x + n = rs.scene.xres →
      ppmColumns rs y n x =
        concatAll (((rs.pixels[rs.scene.yres - 1 - y]).drop x).map ppmTriplet)
  | 0, x, h => by
    have : (rs.pixels[rs.scene.yres - 1 - y]).length ≤ x := by omega
    rw [List.drop_eq_nil_of_le this]
    rfl
  | n + 1, x, h => by
    have hx : x < (rs.pixels[rs.scene.yres - 1 - y]).length := by omega
    rw [ppmColumns, List.drop_eq_getElem_cons hx, List.map_cons, concatAll,
      ppmColumns_eq rs hc hy hlen hrow n (x + 1) (by omega),
      ppmPixel_eq rs hc hy (by omega) (pixelAt_eq_getElem rs hlen hx)]

theorem ppmRows_eq (rs : RayCaster) (hw : rs.WellSized) (hc : Consistent rs) :
    ∀ n, n ≤ rs.scene.yres →
      ppmRows rs n = concatAll ((rs.pixels.drop (rs.scene.yres - n)).map ppmRowText)
  | 0, _ => by
    have : rs.pixels.length ≤ rs.scene.yres - 0 := by rw [hw.1]; omega
    rw [List.drop_eq_nil_of_le this]
    rfl
  | n + 1, h => by
    have hlen : rs.scene.yres - 1 - n < rs.pixels.length := by rw [hw.1]; omega
    have hrow : (rs.pixels[rs.scene.yres - 1 - n]).length = rs.scene.xres :=
      hw.2.1 _ (List.getElem_mem hlen)
    have e1 : rs.scene.yres - (n + 1) = rs.scene.yres - 1 - n := by omega
    have e2 : rs.scene.yres - 1 - n + 1 = rs.scene.yres - n := by omega
    rw [ppmRows, e1, List.drop_eq_getElem_cons hlen, List.map_cons, concatAll, e2,
      ← ppmRows_eq rs hw hc n (by omega),
      ppmColumns_eq rs hc (by omega) hlen hrow rs.scene.xres 0 (by omega), List.drop_zero]
    rfl

theorem rayTrace_consistent (glm : Glm) (rc : RayCaster) (hw : rc.WellSized)
    (eye center up : Vec3) (yview : ℚ) : Consistent (rayTrace glm rc eye center up yview) := by
  obtain ⟨s1, _, _, s4, _⟩ := rayTrace_spec glm rc hw eye center up yview
  intro y x c p hy hx hc hp
  rw [s1] at hy hx ⊢
  rw [s4 y x hy hx] at hp
  rw [rayTrace_data_at glm rc hw eye center up yview hy hx hc, Option.some.inj hp]

/-- C4.  After `rayTrace`, `printPPM` writes the line `P3`, the line
`<xres> <yres> ` with `255` on the next one, and then one line for each of the
`yres` rows of the float grid, from `pixels[0]` to `pixels[yres-1]`, each
holding the `xres` byte triplets of that row followed by blanks; every byte is
below `256`. -/
theorem printPPM_rayTrace (glm : Glm) (rc : RayCaster) (eye center up : Vec3) (yview : ℚ)
    (hw : rc.WellSized) :
    printPPM (rayTrace glm rc eye center up yview) =
      ppmText rc.scene.xres rc.scene.yres (rayTrace glm rc eye center up yview).pixels ∧
    (rayTrace glm rc eye center up yview).pixels.length = rc.scene.yres ∧
    (∀ row ∈ (rayTrace glm rc eye center up yview).pixels, row.length = rc.scene.xres) ∧
    (∀ b ∈ (rayTrace glm rc eye center up yview).data, b < 256) := by
  obtain ⟨s1, _, s3, _, s5⟩ := rayTrace_spec glm rc hw eye center up yview
  have hrows := ppmRows_eq _ s3 (rayTrace_consistent glm rc hw eye center up yview)
    (rayTrace glm rc eye center up yview).scene.yres (le_refl _)
  refine ⟨?_, ?_, ?_, ?_⟩
  · unfold printPPM ppmText
    rw [hrows, Nat.sub_self, List.drop_zero, s1]
  · rw [s3.1, s1]
  · intro row hrow
    rw [s3.2.1 row hrow, s1]
  · intro b hb
    obtain ⟨j, hj, rfl⟩ := List.getElem_of_mem hb
    have hj' : j < rc.scene.yres * rc.scene.xres * 3 := by
      rw [s3.2.2, s1] at hj; exact hj
    have := s5 j hj'
    rw [List.getElem?_eq_getElem hj] at this
    rw [Option.some.inj this]
    exact toUint8_lt _

/-- C4, instance: the export of the 3 by 2 render of `twoDepthsCaster`. -/
theorem printPPM_rayTrace_witness :
    (printPPM (rayTrace exactGlm twoDepthsCaster eye0 center0 up0 1) =
      ppmText twoDepthsCaster.scene.xres twoDepthsCaster.scene.yres
        (rayTrace exactGlm twoDepthsCaster eye0 center0 up0 1).pixels ∧
    (rayTrace exactGlm twoDepthsCaster eye0 center0 up0 1).pixels.length =
      twoDepthsCaster.scene.yres ∧
    (∀ row ∈ (rayTrace exactGlm twoDepthsCaster eye0 center0 up0 1).pixels,
      row.length = twoDepthsCaster.scene.xres) ∧
    (∀ b ∈ (rayTrace exactGlm twoDepthsCaster eye0 center0 up0 1).data, b < 256)) ∧
    printPPM (rayTrace exactGlm twoDepthsCaster eye0 center0 up0 1) =
      "P3\n3 2 \n255\n0 0 0 0 255 0 0 0 0 \n0 0 0 0 255 0 0 0 0 \n" :=
  ⟨printPPM_rayTrace exactGlm twoDepthsCaster eye0 center0 up0 1 (by decide), by decide!⟩
